import Mathlib

/-!
The computeMatches program (OpenCV front end): control logic of the pairwise
matching pipeline.

Shallow embedding of `src/software/SfM/main_computeMatches_OpenCV.cpp`.

* The output directory is a finite map from artifact names to file contents.
* Library calls whose code lives outside the translated file (image decoding,
  the detector, the matcher, the robust estimator, the match-set reader and
  writer, the image-list reader, path helpers) are fields of `Env`: arbitrary
  deterministic functions.  Every call that matters for the pipeline is
  recorded in a log of `Event`s, so that "is not invoked" is a statement
  about the log.
* File writes and directory creation succeed.
* Single precision arithmetic of the overlap test is modelled exactly
  (round to nearest, ties to even) on natural numbers.
-/

set_option maxRecDepth 100000

namespace ComputeMatches

/-! ## Data model -/

/-- Index pair of two images (PairWiseMatches::key_type). -/
abbrev Pair := Nat × Nat

/-- One correspondence: feature index in the left and in the right image. -/
abbrev IndMatch := Nat × Nat

/-- The C++ `PairWiseMatches` map, as an association list.  A `std::map` holds
each key at most once; theorems that need this carry it as a hypothesis. -/
abbrev PairWiseMatches := List (Pair × List IndMatch)

/-- Width and height of an image. -/
abbrev Dims := Nat × Nat

/-- Calibration matrix, entries kept as raw values. -/
abbrev Mat3 := List Int

inductive eGeometricModel
  | FUNDAMENTAL_MATRIX
  | ESSENTIAL_MATRIX
  | HOMOGRAPHY_MATRIX
  deriving DecidableEq, Repr

/-- Files of the output directory that the program touches. `feat b` and
`desc b` are `b.feat` and `b.desc`; `geometric m` is `matches.f.txt`,
`matches.e.txt` or `matches.h.txt`. -/
inductive Artifact
  | lists
  | feat (base : String)
  | desc (base : String)
  | putative
  | geometric (m : eGeometricModel)
  | putativeSvg
  | geometricSvg
  deriving DecidableEq, Repr

/-- Contents of a file: raw bytes, or the text form of a match set. -/
inductive Content
  | bytes (b : List Nat)
  | matchText (m : PairWiseMatches)
  deriving DecidableEq, Repr

/-- The files of the output directory. -/
abbrev Files := Artifact → Option Content

/-- Calls recorded in the log. -/
inductive Event
  | folder_create
  | loadImageList
  | detect (file : String)
  | write (a : Artifact)
  | matcherLoadData
  | pairSelection
  | matcherMatch (pairs : List Pair)
  | filterLoadData
  | Filter (m : eGeometricModel) (putative : PairWiseMatches) (sizes : List Dims)
  deriving DecidableEq, Repr

/-- SfMIO::CameraInfo, the fields the program reads. -/
structure CameraInfo where
  m_sImageName : String
  m_intrinsicId : Nat
  deriving DecidableEq, Repr

/-- SfMIO::IntrinsicCameraInfo, the fields the program reads. -/
structure IntrinsicCameraInfo where
  m_w : Nat
  m_h : Nat
  m_bKnownIntrinsic : Bool
  m_K : Mat3
  deriving DecidableEq, Repr

/-- Feature and descriptor file of one image, as the matcher and the
geometric filter find them when they load their data. -/
abbrev FeatureView := List (Option Content × Option Content)

/-- The collaborators of the program. -/
structure Env where
  /-- stlplus::basename_part -/
  basename_part : String → String
  /-- stlplus::create_filespec on the image directory and an image name -/
  create_filespec : String → String → String
  /-- SfMIO::loadImageList on the contents of lists.txt; none is a false return -/
  loadImageList : Content → Option (List CameraInfo × List IntrinsicCameraInfo)
  /-- ReadImage into an RGB image: the decoded dimensions, none is a false return -/
  readRGB : String → Option Dims
  /-- ReadImage into a gray image: the decoded dimensions, none is a false return -/
  readGray : String → Option Dims
  /-- ComputeCVFeatAndDesc followed by the two buffers saveToBinFile writes -/
  detect : String → Content × Content
  /-- predefinedPairs on the pair list path -/
  predefinedPairs : String → List Pair
  /-- Matcher_AllInMemory::loadData -/
  matcherLoadData : List String → FeatureView → Bool
  /-- Matcher_AllInMemory::Match with the distance ratio of the matcher -/
  matcherMatch : Rat → List String → FeatureView → List Pair → PairWiseMatches
  /-- ImageCollectionGeometricFilter::loadData -/
  filterLoadData : List String → FeatureView → Bool
  /-- ImageCollectionGeometricFilter::Filter with the functor of the model;
  the second argument is the calibration map of the essential functor -/
  Filter : eGeometricModel → List (Nat × Mat3) → List String → FeatureView →
    PairWiseMatches → List Dims → PairWiseMatches
  /-- PairedIndMatchImport into an empty map -/
  importMatches : Content → PairWiseMatches
  /-- PairedIndMatchToStream -/
  exportMatches : PairWiseMatches → Content
  /-- PairWiseMatchingToAdjacencyMatrixSVG -/
  adjacencySVG : Nat → PairWiseMatches → Content

/-- stlplus::file_exists on a file of the output directory. -/
def file_exists (files : Files) (a : Artifact) : Bool := (files a).isSome

/-- Writing a file: the content replaces what was there. -/
def writeFile (files : Files) (a : Artifact) (c : Content) : Files :=
  fun b => if b = a then some c else files b

/-! ## extractFeaturesAndDescriptors -/

/-- Variables of the extraction loop: the output directory, the log, the two
image buffers declared before the loop (their dimensions) and the size table. -/
structure ExtractState where
  files : Files
  log : List Event
  imageRGB : Dims
  imageGray : Dims
  vec_imagesSize : List Dims

/-- One iteration of the loop of extractFeaturesAndDescriptors, for image
number `i` with file name `f`.  A failed ReadImage leaves its buffer as it
was. -/
def extractStep (env : Env) (f : String) (i : Nat) (s : ExtractState) : ExtractState :=
  let sFeat := Artifact.feat (env.basename_part f)
  let sDesc := Artifact.desc (env.basename_part f)
  if file_exists s.files sFeat && file_exists s.files sDesc then
    match env.readRGB f with
    | some d => { s with imageRGB := d, vec_imagesSize := s.vec_imagesSize.set i d }
    | none =>
      match env.readGray f with
      | some d => { s with imageGray := d, vec_imagesSize := s.vec_imagesSize.set i d }
      | none => { s with vec_imagesSize := s.vec_imagesSize.set i s.imageGray }
  else
    match env.readGray f with
    | none => s
    | some d =>
      { s with
        files := writeFile (writeFile s.files sFeat (env.detect f).1) sDesc (env.detect f).2
        log := s.log ++ [Event.detect f, Event.write sFeat, Event.write sDesc]
        imageGray := d
        vec_imagesSize := s.vec_imagesSize.set i d }

/-- The loop over the file names, from image number `i` on. -/
def extractLoop (env : Env) : List String → Nat → ExtractState → ExtractState
  | [], _, s => s
  | f :: fs, i, s => extractLoop env fs (i + 1) (extractStep env f i s)

/-- The call std::vector::resize(n) on the size table. -/
def resize (v : List Dims) (n : Nat) : List Dims :=
  (v ++ List.replicate (n - v.length) (0, 0)).take n

/-- extractFeaturesAndDescriptors: both buffers start empty. -/
def extractFeaturesAndDescriptors (env : Env) (vec_fileNames : List String)
    (files : Files) (log : List Event) (vec_imagesSize : List Dims) : ExtractState :=
  extractLoop env vec_fileNames 0
    { files := files, log := log, imageRGB := (0, 0), imageGray := (0, 0),
      vec_imagesSize := resize vec_imagesSize vec_fileNames.length }

/-! ## Single precision arithmetic of the overlap test

A finite non-negative binary32 value is an integer multiple of 2^-149 (the
smallest subnormal); `F32.fin n` is the value n * 2^-149.  Such a value is
representable when n = m * 2^k with m < 2^24 and n < 2^128 * 2^149. -/

/-- Non-negative binary32 values. -/
inductive F32
  | fin (n : Nat)
  | inf
  | nan
  deriving DecidableEq, Repr

/-- Binary logarithm, rounded down, by halving at most `fuel` times. -/
def log2Fuel : Nat → Nat → Nat
  | 0, _ => 0
  | fuel + 1, n => if n < 2 then 0 else log2Fuel fuel (n / 2) + 1

/-- Binary logarithm, rounded down (0 at 0). -/
def ilog2 (n : Nat) : Nat := log2Fuel n n

/-- The integer nearest to N / D, ties to the even one. -/
def roundNearestEven (N D : Nat) : Nat :=
  if 2 * (N % D) < D then N / D
  else if D < 2 * (N % D) then N / D + 1
  else if (N / D) % 2 = 0 then N / D else N / D + 1

/-- Round to nearest even of the positive real (N / D) * 2^-149, for D > 0:
the spacing of binary32 around it is 2^k units, with 24 significant bits. -/
def F32.round (N D : Nat) : F32 :=
  let k := ilog2 (N / D) - 23
  let n := roundNearestEven N (D * 2 ^ k) * 2 ^ k
  if 2 ^ 128 * 2 ^ 149 ≤ n then F32.inf else F32.fin n

/-- Conversion of a size_t to float. -/
def F32.ofNat (n : Nat) : F32 := F32.round (n * 2 ^ 149) 1

/-- The float literal whose decimal value is num / den, as `.3f` is 3 / 10. -/
def F32.literal (num den : Nat) : F32 := F32.round (num * 2 ^ 149) den

/-- Float division. -/
def F32.div : F32 → F32 → F32
  | F32.nan, _ => F32.nan
  | _, F32.nan => F32.nan
  | F32.inf, F32.inf => F32.nan
  | F32.inf, F32.fin _ => F32.inf
  | F32.fin _, F32.inf => F32.fin 0
  | F32.fin a, F32.fin b =>
    if b = 0 then (if a = 0 then F32.nan else F32.inf)
    else F32.round (a * 2 ^ 149) b

/-- The comparison `<` of two floats. -/
def F32.lt : F32 → F32 → Bool
  | F32.fin a, F32.fin b => decide (a < b)
  | F32.fin _, F32.inf => true
  | _, _ => false

/-! ## The additional check of the essential case (lines 409-427) -/

/-- The lookup of std::map::find. -/
def find (m : PairWiseMatches) (k : Pair) : Option (List IndMatch) :=
  match m with
  | [] => none
  | e :: rest => if e.1 = k then some e.2 else find rest k

/-- The test of line 417 on the inlier count and the putative count:
`putativeGeometricCount < 50 || ratio < .3f` with the float
`ratio = putativeGeometricCount / (float)putativePhotometricCount`. -/
def poorOverlap (putativeGeometricCount putativePhotometricCount : Nat) : Bool :=
  decide (putativeGeometricCount < 50) ||
    F32.lt (F32.div (F32.ofNat putativeGeometricCount) (F32.ofNat putativePhotometricCount))
      (F32.literal 3 10)

/-- Size of the putative entry of a pair.  The source dereferences the
result of `find` unchecked; where the pair has no entry (undefined behaviour
in the source) the model reads 0. -/
def putativePhotometricCount (map_PutativesMatches : PairWiseMatches) (k : Pair) : Nat :=
  match find map_PutativesMatches k with
  | some v => v.length
  | none => 0

/-- First loop: the keys of the pairs to remove, in map order. -/
def vec_toRemove (map_PutativesMatches map_GeometricMatches : PairWiseMatches) : List Pair :=
  (map_GeometricMatches.filter
    (fun e => poorOverlap e.2.length (putativePhotometricCount map_PutativesMatches e.1))).map
    (fun e => e.1)

/-- The call std::map::erase(key). -/
def erase (m : PairWiseMatches) (k : Pair) : PairWiseMatches :=
  m.filter (fun e => decide (e.1 ≠ k))

/-- Both loops: the geometric matches after the discarded pairs are removed. -/
def removePoorOverlap (map_PutativesMatches map_GeometricMatches : PairWiseMatches) :
    PairWiseMatches :=
  (vec_toRemove map_PutativesMatches map_GeometricMatches).foldl erase map_GeometricMatches

/-! ## main -/

/-- The command line after CmdLine::process, defaults applied. -/
structure Args where
  sImaDirectory : String
  sOutDir : String
  sGeometricModel : String
  fDistRatio : Rat
  iMatchingVideoMode : Int
  sPredefinedPairList : String

/-- The output directory (does the folder exist, its files) and the log. -/
structure World where
  folder : Bool
  files : Files
  log : List Event

def EXIT_SUCCESS : Int := 0

def EXIT_FAILURE : Int := 1

/-- Conversion of a bool to the int that main returns. -/
def boolToInt (b : Bool) : Int := if b then 1 else 0

instance : Inhabited IntrinsicCameraInfo := ⟨⟨0, 0, false, []⟩⟩

/-- Lines 190-196: the exit code if the check returns, none if it falls through. -/
def checkPairOptions (args : Args) : Option Int :=
  if args.sPredefinedPairList.length ≠ 0 then
    if args.iMatchingVideoMode > 0 then some EXIT_FAILURE else none
  else none

/-- Lines 203-222: the switch on the first character of the model name (the
null character if the name is empty); none is the default case. -/
def selectModel (sGeometricModel : String) : Option eGeometricModel :=
  match sGeometricModel.data with
  | [] => none
  | c :: _ =>
    if c = 'f' ∨ c = 'F' then some eGeometricModel.FUNDAMENTAL_MATRIX
    else if c = 'e' ∨ c = 'E' then some eGeometricModel.ESSENTIAL_MATRIX
    else if c = 'h' ∨ c = 'H' then some eGeometricModel.HOMOGRAPHY_MATRIX
    else none

/-- Modelled from the spec: exhaustivePairs (pair selection code outside the
translated file): all pairs (i, j) with i < j < N. -/
def exhaustivePairs (N : Nat) : List Pair :=
  (List.range N).flatMap (fun i => ((List.range N).filter (fun j => decide (i < j))).map (fun j => (i, j)))

/-- Modelled from the spec: contiguousWithOverlap (pair selection code outside
the translated file): all pairs (i, j) in range with 0 < j - i ≤ W. -/
def contiguousWithOverlap (N W : Nat) : List Pair :=
  (List.range N).flatMap (fun i =>
    ((List.range N).filter (fun j => decide (i < j ∧ j ≤ i + W))).map (fun j => (i, j)))

/-- Lines 337-341: the pairs of the active matching mode. -/
def selectPairs (env : Env) (args : Args) (N : Nat) : List Pair :=
  if args.iMatchingVideoMode > 0 then contiguousWithOverlap N args.iMatchingVideoMode.toNat
  else if args.sPredefinedPairList.length ≠ 0 then env.predefinedPairs args.sPredefinedPairList
  else exhaustivePairs N

/-- The feature and descriptor files of the images, as loadData finds them. -/
def featureView (env : Env) (files : Files) (vec_fileNames : List String) : FeatureView :=
  vec_fileNames.map (fun f =>
    (files (Artifact.feat (env.basename_part f)), files (Artifact.desc (env.basename_part f))))

/-- What main holds when the putative stage starts (line 320). -/
structure PipelineState where
  model : eGeometricModel
  vec_camImageName : List CameraInfo
  vec_focalGroup : List IntrinsicCameraInfo
  vec_fileNames : List String
  vec_imagesSize : List Dims
  world : World

/-- Lines 233-234: the output folder is created when it does not exist. -/
def createOutDir (w : World) : World :=
  if w.folder then w else { w with folder := true, log := w.log ++ [Event.folder_create] }

/-- Lines 256-304: file names and sizes of the listed images, then feature
extraction. -/
def extractStage (env : Env) (args : Args) (model : eGeometricModel)
    (vec_camImageName : List CameraInfo) (vec_focalGroup : List IntrinsicCameraInfo)
    (w : World) : PipelineState :=
  let vec_imagesSize := vec_camImageName.map (fun cam =>
    ((vec_focalGroup.getD cam.m_intrinsicId default).m_w,
     (vec_focalGroup.getD cam.m_intrinsicId default).m_h))
  let vec_fileNames := vec_camImageName.map (fun cam =>
    env.create_filespec args.sImaDirectory cam.m_sImageName)
  let st := extractFeaturesAndDescriptors env vec_fileNames w.files w.log vec_imagesSize
  { model := model
    vec_camImageName := vec_camImageName
    vec_focalGroup := vec_focalGroup
    vec_fileNames := vec_fileNames
    vec_imagesSize := st.vec_imagesSize
    world := { w with files := st.files, log := st.log } }

/-- Lines 190-304: option checks, output folder, image list and feature
extraction.  An early return is the exit code with the world left behind. -/
def mainPrelude (env : Env) (args : Args) (w : World) : Except (Int × World) PipelineState :=
  match checkPairOptions args with
  | some code => Except.error (code, w)
  | none =>
    if args.sOutDir.isEmpty then Except.error (EXIT_FAILURE, w)
    else
      match selectModel args.sGeometricModel with
      | none => Except.error (EXIT_FAILURE, w)
      | some model =>
        match (createOutDir w).files Artifact.lists with
        | none => Except.error (boolToInt false, createOutDir w)
        | some c =>
          match env.loadImageList c with
          | none =>
            Except.error (boolToInt false,
              { createOutDir w with log := (createOutDir w).log ++ [Event.loadImageList] })
          | some (vec_camImageName, vec_focalGroup) =>
            Except.ok (extractStage env args model vec_camImageName vec_focalGroup
              { createOutDir w with log := (createOutDir w).log ++ [Event.loadImageList] })

/-- Lines 320-358: the putative matches and the world after the stage, or the
early return on an empty pair list. -/
def putativeStage (env : Env) (args : Args) (vec_fileNames : List String) (w : World) :
    Except (Int × World) (PairWiseMatches × World) :=
  match w.files Artifact.putative with
  | some c => Except.ok (env.importMatches c, w)
  | none =>
    let w1 : World := { w with log := w.log ++ [Event.matcherLoadData] }
    if env.matcherLoadData vec_fileNames (featureView env w.files vec_fileNames) then
      let pairs := selectPairs env args vec_fileNames.length
      let w2 : World := { w1 with log := w1.log ++ [Event.pairSelection] }
      if pairs.isEmpty then Except.error (EXIT_FAILURE, w2)
      else
        let m := env.matcherMatch args.fDistRatio vec_fileNames
          (featureView env w.files vec_fileNames) pairs
        Except.ok (m,
          { w2 with
            files := writeFile w2.files Artifact.putative (env.exportMatches m)
            log := w2.log ++ [Event.matcherMatch pairs, Event.write Artifact.putative] })
    else Except.ok ([], w1)

/-- Lines 392-401: the calibration matrix of every image with known intrinsics. -/
def buildMapK (vec_camImageName : List CameraInfo) (vec_focalGroup : List IntrinsicCameraInfo) :
    List (Nat × Mat3) :=
  vec_camImageName.enum.filterMap (fun e =>
    if (vec_focalGroup.getD e.2.m_intrinsicId default).m_bKnownIntrinsic then
      some (e.1, (vec_focalGroup.getD e.2.m_intrinsicId default).m_K)
    else none)

/-- The switch of lines 378-439: the geometric matches of the chosen model. -/
def filterByModel (env : Env) (st : PipelineState) (files : Files)
    (map_PutativesMatches : PairWiseMatches) : PairWiseMatches :=
  match st.model with
  | eGeometricModel.FUNDAMENTAL_MATRIX =>
    env.Filter eGeometricModel.FUNDAMENTAL_MATRIX [] st.vec_fileNames
      (featureView env files st.vec_fileNames) map_PutativesMatches st.vec_imagesSize
  | eGeometricModel.ESSENTIAL_MATRIX =>
    removePoorOverlap map_PutativesMatches
      (env.Filter eGeometricModel.ESSENTIAL_MATRIX
        (buildMapK st.vec_camImageName st.vec_focalGroup) st.vec_fileNames
        (featureView env files st.vec_fileNames) map_PutativesMatches st.vec_imagesSize)
  | eGeometricModel.HOMOGRAPHY_MATRIX =>
    env.Filter eGeometricModel.HOMOGRAPHY_MATRIX [] st.vec_fileNames
      (featureView env files st.vec_fileNames) map_PutativesMatches st.vec_imagesSize

/-- Lines 370-457: geometric filtering and its exports. -/
def geometricStage (env : Env) (st : PipelineState) (map_PutativesMatches : PairWiseMatches)
    (w : World) : World :=
  let w1 : World := { w with log := w.log ++ [Event.filterLoadData] }
  if env.filterLoadData st.vec_fileNames (featureView env w.files st.vec_fileNames) then
    let map_GeometricMatches := filterByModel env st w.files map_PutativesMatches
    { w1 with
      files := writeFile
        (writeFile w1.files (Artifact.geometric st.model) (env.exportMatches map_GeometricMatches))
        Artifact.geometricSvg (env.adjacencySVG st.vec_fileNames.length map_GeometricMatches)
      log := w1.log ++
        [Event.Filter st.model map_PutativesMatches st.vec_imagesSize,
         Event.write (Artifact.geometric st.model), Event.write Artifact.geometricSvg] }
  else w1

/-- Lines 359-362: the adjacency matrix of the putative matches. -/
def exportPutativeAdjacency (env : Env) (st : PipelineState)
    (map_PutativesMatches : PairWiseMatches) (w : World) : World :=
  { w with
    files := writeFile w.files Artifact.putativeSvg
      (env.adjacencySVG st.vec_fileNames.length map_PutativesMatches)
    log := w.log ++ [Event.write Artifact.putativeSvg] }

/-- Lines 320-458, from the state the prelude leaves. -/
def mainStages (env : Env) (args : Args) (st : PipelineState) : Int × World :=
  match putativeStage env args st.vec_fileNames st.world with
  | Except.error r => r
  | Except.ok (map_PutativesMatches, w) =>
    (EXIT_SUCCESS,
      geometricStage env st map_PutativesMatches
        (exportPutativeAdjacency env st map_PutativesMatches w))

/-- The program: `parsed` is none when `argc == 1` or CmdLine::process throws. -/
def main (env : Env) (parsed : Option Args) (w : World) : Int × World :=
  match parsed with
  | none => (EXIT_FAILURE, w)
  | some args =>
    match mainPrelude env args w with
    | Except.error r => r
    | Except.ok st => mainStages env args st

/-! ## A concrete environment for the examples -/

/-- The part of a path after its last slash. -/
def afterLastSlash : List Char → List Char → List Char
  | [], acc => acc.reverse
  | c :: cs, acc => if c = '/' then afterLastSlash cs [] else afterLastSlash cs (c :: acc)

/-- A file name without its extension (the part from the last dot on, unless
the only dot is the first character). -/
def dropExtension (cs : List Char) : List Char :=
  match cs.reverse.dropWhile (fun c => decide (c ≠ '.')) with
  | [] => cs
  | _ :: rest => if rest.isEmpty then cs else rest.reverse

/-- The base name of a path, as stlplus::basename_part computes it. -/
def demoBasename (path : String) : String :=
  String.mk (dropExtension (afterLastSlash path.data []))

/-- An environment: `images` are the names in the image list (all of one
intrinsic group, 640 by 480), the files in `broken` do not decode, loading
the data of the matcher or of the filter needs both files of every image, the
matcher returns one correspondence per pair, the filter keeps everything
unless an image size is 0 by 0, and match sets are written as `matchText`. -/
def demoEnv (images broken : List String) : Env where
  basename_part := demoBasename
  create_filespec := fun dir name => if dir.isEmpty then name else dir ++ "/" ++ name
  loadImageList := fun c =>
    if c = Content.bytes [] then none
    else some (images.map (fun n => ⟨n, 0⟩), [⟨640, 480, true, []⟩])
  readRGB := fun f => if f ∈ broken then none else some (640, 480)
  readGray := fun f => if f ∈ broken then none else some (640, 480)
  detect := fun f => (Content.bytes [f.length], Content.bytes [f.length, f.length])
  predefinedPairs := fun _ => []
  matcherLoadData := fun _ view => view.all (fun p => p.1.isSome && p.2.isSome)
  matcherMatch := fun _ _ _ pairs => pairs.map (fun p => (p, [(0, 0)]))
  filterLoadData := fun _ view => view.all (fun p => p.1.isSome && p.2.isSome)
  Filter := fun _ _ _ _ put sizes => if (0, 0) ∈ sizes then [] else put
  importMatches := fun c =>
    match c with
    | Content.matchText m => m
    | Content.bytes _ => []
  exportMatches := Content.matchText
  adjacencySVG := fun n m => Content.bytes [n, m.length]

/-- Command line `-i img -o out`, every other option at its default. -/
def demoArgs : Args :=
  { sImaDirectory := "img", sOutDir := "out", sGeometricModel := "f",
    fDistRatio := 6 / 10, iMatchingVideoMode := -1, sPredefinedPairList := "" }

/-- An output directory that does not exist yet. -/
def noFolder : World := { folder := false, files := fun _ => none, log := [] }

/-- An output directory that holds lists.txt only. -/
def listsOnly : World :=
  { folder := true
    files := fun a => if a = Artifact.lists then some (Content.bytes [1]) else none
    log := [] }

/-- The matcher calls: loading its data, selecting the pairs, Match. -/
def isMatcherEvent : Event → Bool
  | Event.matcherLoadData => true
  | Event.pairSelection => true
  | Event.matcherMatch _ => true
  | _ => false

/-- Events of the prelude: folder creation, reading the image list, the
detector and the writes of feature and descriptor files. -/
def isPreludeEvent : Event → Bool
  | Event.folder_create => true
  | Event.loadImageList => true
  | Event.detect _ => true
  | Event.write (Artifact.feat _) => true
  | Event.write (Artifact.desc _) => true
  | _ => false

/-- The test of line 123: both artifacts of the image exist. -/
def cached (env : Env) (files : Files) (f : String) : Bool :=
  file_exists files (Artifact.feat (env.basename_part f)) &&
    file_exists files (Artifact.desc (env.basename_part f))

/-- Command line with both a pair list and a sequence window. -/
def conflictArgs : Args :=
  { demoArgs with iMatchingVideoMode := 2, sPredefinedPairList := "pairs.txt" }

/-- Command line `-o out`: no image directory. -/
def noImaDirArgs : Args := { demoArgs with sImaDirectory := "" }

/-- An output directory whose lists.txt is empty. -/
def emptyLists : World :=
  { folder := true
    files := fun a => if a = Artifact.lists then some (Content.bytes []) else none
    log := [] }

/-- An output directory that holds lists.txt and a putative match file with
no pair. -/
def putativeOnly : World :=
  { folder := true
    files := fun a =>
      if a = Artifact.lists then some (Content.bytes [1])
      else if a = Artifact.putative then some (Content.matchText [])
      else none
    log := [] }

/-- An output directory left by an earlier run on two images: lists.txt, the
putative matches and a file matches.f.txt. -/
def rerunWorld : World :=
  { folder := true
    files := fun a =>
      if a = Artifact.lists then some (Content.bytes [1])
      else if a = Artifact.putative then some (Content.matchText [((0, 1), [(0, 0)])])
      else if a = Artifact.geometric eGeometricModel.FUNDAMENTAL_MATRIX then
        some (Content.bytes [7])
      else none
    log := [] }

/-- The state at the start of the putative stage, for a run of `demoEnv` with
the fundamental model from the output directory `w`. -/
def demoState (images broken : List String) (args : Args) (w : World) : PipelineState :=
  extractStage (demoEnv images broken) args eGeometricModel.FUNDAMENTAL_MATRIX
    (images.map (fun n => ⟨n, 0⟩)) [⟨640, 480, true, []⟩]
    { createOutDir w with log := (createOutDir w).log ++ [Event.loadImageList] }

/-- Two directories hold the same feature and descriptor files. -/
def sameFeatures (f1 f2 : Files) : Prop :=
  ∀ b, f1 (Artifact.feat b) = f2 (Artifact.feat b) ∧ f1 (Artifact.desc b) = f2 (Artifact.desc b)

/-- Feature and descriptor files, as opposed to the match files and the
pictures of the later stages. -/
def isFeatureFile : Artifact → Bool
  | Artifact.feat _ => true
  | Artifact.desc _ => true
  | _ => false

/-- The image decodes as a gray image, and if it decodes as an RGB image as
well, both readings have the same dimensions. -/
def decodes (env : Env) (f : String) : Prop :=
  ∃ d, env.readGray f = some d ∧ ∀ d2, env.readRGB f = some d2 → d2 = d

/-- The image files that main lists from lists.txt (empty when the list is
absent or does not load). -/
def listedImages (env : Env) (args : Args) (w : World) : List String :=
  match w.files Artifact.lists with
  | none => []
  | some c =>
    match env.loadImageList c with
    | none => []
    | some (cams, _) => cams.map (fun cam => env.create_filespec args.sImaDirectory cam.m_sImageName)

/-- The later world has the folder, the feature files and the lists.txt of
the earlier one. -/
def keeps (w2 w1 : World) : Prop :=
  w2.folder = w1.folder ∧ sameFeatures w2.files w1.files ∧
    w2.files Artifact.lists = w1.files Artifact.lists

/-- Putative matches of three pairs: 100, 100 and 10 correspondences. -/
def pruningPutatives : PairWiseMatches :=
  [((0, 1), List.replicate 100 (0, 0)), ((0, 2), List.replicate 100 (0, 0)),
   ((1, 2), List.replicate 10 (0, 0))]

/-- An environment whose estimator finds 50, 49 and 3 inliers for the three
pairs. -/
def pruningEnv : Env :=
  { demoEnv [] [] with
    Filter := fun _ _ _ _ _ _ =>
      [((0, 1), List.replicate 50 (0, 0)), ((0, 2), List.replicate 49 (0, 0)),
       ((1, 2), List.replicate 3 (0, 0))] }

/-- A state of main with the essential model chosen. -/
def pruningState : PipelineState :=
  { model := eGeometricModel.ESSENTIAL_MATRIX, vec_camImageName := [], vec_focalGroup := [],
    vec_fileNames := [], vec_imagesSize := [], world := noFolder }

/-! ## Lemmas on the extraction loop and the prelude -/

theorem extractStep_cached_rgb (env : Env) (f : String) (i : Nat) (s : ExtractState) (d : Dims)
    (hc : cached env s.files f = true) (hr : env.readRGB f = some d) :
    extractStep env f i s = { s with imageRGB := d, vec_imagesSize := s.vec_imagesSize.set i d } := by
  unfold cached at hc
  simp [extractStep, hc, hr]

theorem extractStep_cached_gray (env : Env) (f : String) (i : Nat) (s : ExtractState) (d : Dims)
    (hc : cached env s.files f = true) (hr : env.readRGB f = none) (hg : env.readGray f = some d) :
    extractStep env f i s = { s with imageGray := d, vec_imagesSize := s.vec_imagesSize.set i d } := by
  unfold cached at hc
  simp [extractStep, hc, hr, hg]

theorem extractStep_cached_none (env : Env) (f : String) (i : Nat) (s : ExtractState)
    (hc : cached env s.files f = true) (hr : env.readRGB f = none) (hg : env.readGray f = none) :
    extractStep env f i s = { s with vec_imagesSize := s.vec_imagesSize.set i s.imageGray } := by
  unfold cached at hc
  simp [extractStep, hc, hr, hg]

theorem extractStep_fresh_fail (env : Env) (f : String) (i : Nat) (s : ExtractState)
    (hc : cached env s.files f = false) (hg : env.readGray f = none) :
    extractStep env f i s = s := by
  unfold cached at hc
  simp [extractStep, hc, hg]

theorem extractStep_fresh_ok (env : Env) (f : String) (i : Nat) (s : ExtractState) (d : Dims)
    (hc : cached env s.files f = false) (hg : env.readGray f = some d) :
    extractStep env f i s =
      { s with
        files := writeFile (writeFile s.files (Artifact.feat (env.basename_part f)) (env.detect f).1)
          (Artifact.desc (env.basename_part f)) (env.detect f).2
        log := s.log ++ [Event.detect f, Event.write (Artifact.feat (env.basename_part f)),
          Event.write (Artifact.desc (env.basename_part f))]
        imageGray := d
        vec_imagesSize := s.vec_imagesSize.set i d } := by
  unfold cached at hc
  simp [extractStep, hc, hg]

theorem extractStep_log (env : Env) (f : String) (i : Nat) (s : ExtractState) :
    ∃ tail, (extractStep env f i s).log = s.log ++ tail ∧ ∀ e ∈ tail, isPreludeEvent e = true := by
  cases hc : cached env s.files f
  · cases hg : env.readGray f with
    | none => exact ⟨[], by simp [extractStep_fresh_fail env f i s hc hg]⟩
    | some d => exact ⟨_, by rw [extractStep_fresh_ok env f i s d hc hg], by simp [isPreludeEvent]⟩
  · cases hr : env.readRGB f with
    | some d => exact ⟨[], by simp [extractStep_cached_rgb env f i s d hc hr]⟩
    | none =>
      cases hg : env.readGray f with
      | none => exact ⟨[], by simp [extractStep_cached_none env f i s hc hr hg]⟩
      | some d => exact ⟨[], by simp [extractStep_cached_gray env f i s d hc hr hg]⟩

theorem extractLoop_log (env : Env) (fs : List String) :
    ∀ (i : Nat) (s : ExtractState),
      ∃ tail, (extractLoop env fs i s).log = s.log ++ tail ∧
        ∀ e ∈ tail, isPreludeEvent e = true := by
  induction fs with
  | nil => intro i s; exact ⟨[], by simp [extractLoop]⟩
  | cons f fs ih =>
    intro i s
    obtain ⟨t1, h1, h1e⟩ := extractStep_log env f i s
    obtain ⟨t2, h2, h2e⟩ := ih (i + 1) (extractStep env f i s)
    refine ⟨t1 ++ t2, ?_, ?_⟩
    · simp [extractLoop, h2, h1]
    · intro e he
      rcases List.mem_append.1 he with h | h
      · exact h1e e h
      · exact h2e e h

theorem extractLoop_append (env : Env) (pre post : List String) :
    ∀ (i : Nat) (s : ExtractState),
      extractLoop env (pre ++ post) i s =
        extractLoop env post (i + pre.length) (extractLoop env pre i s) := by
  induction pre with
  | nil => intro i s; simp [extractLoop]
  | cons f fs ih =>
    intro i s
    show extractLoop env (f :: (fs ++ post)) i s = _
    simp only [extractLoop, List.length_cons]
    rw [ih (i + 1) (extractStep env f i s)]
    congr 1
    omega

theorem file_exists_writeFile (files : Files) (a b : Artifact) (c : Content)
    (h : file_exists files b = true) : file_exists (writeFile files a c) b = true := by
  unfold file_exists writeFile at *
  by_cases hb : b = a <;> simp [hb, h]

/-- One iteration never removes a file. -/
theorem extractStep_mono (env : Env) (f : String) (i : Nat) (s : ExtractState) (a : Artifact)
    (h : file_exists s.files a = true) : file_exists (extractStep env f i s).files a = true := by
  cases hc : cached env s.files f
  · cases hg : env.readGray f with
    | none => rw [extractStep_fresh_fail env f i s hc hg]; exact h
    | some d =>
      rw [extractStep_fresh_ok env f i s d hc hg]
      exact file_exists_writeFile _ _ _ _ (file_exists_writeFile _ _ _ _ h)
  · cases hr : env.readRGB f with
    | some d => rw [extractStep_cached_rgb env f i s d hc hr]; exact h
    | none =>
      cases hg : env.readGray f with
      | none => rw [extractStep_cached_none env f i s hc hr hg]; exact h
      | some d => rw [extractStep_cached_gray env f i s d hc hr hg]; exact h

theorem extractLoop_mono (env : Env) (fs : List String) (a : Artifact) :
    ∀ (i : Nat) (s : ExtractState), file_exists s.files a = true →
      file_exists (extractLoop env fs i s).files a = true := by
  induction fs with
  | nil => intro i s h; exact h
  | cons f fs ih =>
    intro i s h
    exact ih (i + 1) _ (extractStep_mono env f i s a h)

theorem cached_mono_loop (env : Env) (fs : List String) (g : String) (i : Nat)
    (s : ExtractState) (h : cached env s.files g = true) :
    cached env (extractLoop env fs i s).files g = true := by
  unfold cached at *
  simp only [Bool.and_eq_true] at *
  exact ⟨extractLoop_mono env fs _ i s h.1, extractLoop_mono env fs _ i s h.2⟩

/-- After its iteration, an image that decodes has both artifacts. -/
theorem extractStep_ensures (env : Env) (f : String) (i : Nat) (s : ExtractState) (d : Dims)
    (hg : env.readGray f = some d) : cached env (extractStep env f i s).files f = true := by
  cases hc : cached env s.files f
  · rw [extractStep_fresh_ok env f i s d hc hg]
    simp [cached, file_exists, writeFile]
  · unfold cached at *
    simp only [Bool.and_eq_true] at *
    exact ⟨extractStep_mono env f i s _ hc.1, extractStep_mono env f i s _ hc.2⟩

theorem extractLoop_ensures (env : Env) (fs : List String) :
    ∀ (i : Nat) (s : ExtractState) (g : String) (d : Dims), g ∈ fs → env.readGray g = some d →
      cached env (extractLoop env fs i s).files g = true := by
  induction fs with
  | nil => intro i s g d hg; cases hg
  | cons f fs ih =>
    intro i s g d hmem hg
    simp only [extractLoop]
    by_cases hin : g ∈ fs
    · exact ih (i + 1) _ g d hin hg
    · have : g = f := by
        rcases List.mem_cons.1 hmem with h | h
        · exact h
        · exact absurd h hin
      subst this
      exact cached_mono_loop env fs g (i + 1) _ (extractStep_ensures env g i s d hg)

/-- Where every image that decodes has both artifacts, the loop calls no
detector and writes no file. -/
theorem extractLoop_idle (env : Env) (fs : List String) :
    ∀ (i : Nat) (s : ExtractState),
      (∀ g ∈ fs, ∀ d, env.readGray g = some d → cached env s.files g = true) →
      (extractLoop env fs i s).files = s.files ∧ (extractLoop env fs i s).log = s.log := by
  induction fs with
  | nil => intro i s _; exact ⟨rfl, rfl⟩
  | cons f fs ih =>
    intro i s h
    have hstep : (extractStep env f i s).files = s.files ∧ (extractStep env f i s).log = s.log := by
      cases hc : cached env s.files f
      · cases hg : env.readGray f with
        | none => rw [extractStep_fresh_fail env f i s hc hg]; exact ⟨rfl, rfl⟩
        | some d =>
          have := h f (List.mem_cons_self _ _) d hg
          rw [hc] at this
          cases this
      · cases hr : env.readRGB f with
        | some d => rw [extractStep_cached_rgb env f i s d hc hr]; exact ⟨rfl, rfl⟩
        | none =>
          cases hg : env.readGray f with
          | none => rw [extractStep_cached_none env f i s hc hr hg]; exact ⟨rfl, rfl⟩
          | some d => rw [extractStep_cached_gray env f i s d hc hr hg]; exact ⟨rfl, rfl⟩
    have h2 := ih (i + 1) (extractStep env f i s) (fun g hg d hd => by
      rw [hstep.1]; exact h g (List.mem_cons_of_mem _ hg) d hd)
    simp only [extractLoop]
    exact ⟨h2.1.trans hstep.1, h2.2.trans hstep.2⟩

/-- What a successful prelude went through. -/
theorem mainPrelude_ok (env : Env) (args : Args) (w : World) (st : PipelineState)
    (h : mainPrelude env args w = Except.ok st) :
    ∃ model c cams groups,
      checkPairOptions args = none ∧ args.sOutDir.isEmpty = false ∧
      selectModel args.sGeometricModel = some model ∧
      (createOutDir w).files Artifact.lists = some c ∧
      env.loadImageList c = some (cams, groups) ∧
      st = extractStage env args model cams groups
        { createOutDir w with log := (createOutDir w).log ++ [Event.loadImageList] } := by
  unfold mainPrelude at h
  cases h1 : checkPairOptions args with
  | some code => simp [h1] at h
  | none =>
    cases h2 : args.sOutDir.isEmpty with
    | true => simp [h1, h2] at h
    | false =>
      cases h3 : selectModel args.sGeometricModel with
      | none => simp [h1, h2, h3] at h
      | some model =>
        cases h4 : (createOutDir w).files Artifact.lists with
        | none => simp [h1, h2, h3, h4] at h
        | some c =>
          cases h5 : env.loadImageList c with
          | none => simp [h1, h2, h3, h4, h5] at h
          | some p =>
            obtain ⟨cams, groups⟩ := p
            simp [h1, h2, h3, h4, h5] at h
            exact ⟨model, c, cams, groups, rfl, rfl, rfl, rfl, h5, h.symm⟩

theorem createOutDir_log (w : World) :
    ∃ tail, (createOutDir w).log = w.log ++ tail ∧ ∀ e ∈ tail, isPreludeEvent e = true := by
  unfold createOutDir
  by_cases hf : w.folder
  · exact ⟨[], by simp [hf]⟩
  · exact ⟨[Event.folder_create], by simp [hf], by simp [isPreludeEvent]⟩

theorem createOutDir_files (w : World) : (createOutDir w).files = w.files := by
  unfold createOutDir
  by_cases hf : w.folder <;> simp [hf]

theorem mainPrelude_log (env : Env) (args : Args) (w : World) (st : PipelineState)
    (h : mainPrelude env args w = Except.ok st) :
    ∃ tail, st.world.log = w.log ++ tail ∧ ∀ e ∈ tail, isPreludeEvent e = true := by
  obtain ⟨model, c, cams, groups, -, -, -, -, -, hst⟩ := mainPrelude_ok env args w st h
  subst hst
  obtain ⟨t0, h0, h0e⟩ := createOutDir_log w
  obtain ⟨t, ht, hte⟩ := extractLoop_log env
    (cams.map (fun cam => env.create_filespec args.sImaDirectory cam.m_sImageName)) 0
    { files := (createOutDir w).files, log := (createOutDir w).log ++ [Event.loadImageList],
      imageRGB := (0, 0), imageGray := (0, 0),
      vec_imagesSize := resize (cams.map (fun cam =>
        ((groups.getD cam.m_intrinsicId default).m_w,
         (groups.getD cam.m_intrinsicId default).m_h))) (cams.map (fun cam =>
          env.create_filespec args.sImaDirectory cam.m_sImageName)).length }
  refine ⟨t0 ++ Event.loadImageList :: t, ?_, ?_⟩
  · simp only [extractStage, extractFeaturesAndDescriptors]
    rw [ht, h0]
    simp
  · intro e he
    rcases List.mem_append.1 he with h | h
    · exact h0e e h
    · rcases List.mem_cons.1 h with h | h
      · subst h; rfl
      · exact hte e h


/-! ## Lemmas on the stages of main -/

theorem main_of_prelude_ok (env : Env) (args : Args) (w : World) (st : PipelineState)
    (h : mainPrelude env args w = Except.ok st) :
    main env (some args) w = mainStages env args st := by
  simp [main, h]

theorem putativeStage_resume (env : Env) (args : Args) (names : List String) (w : World)
    (c : Content) (h : w.files Artifact.putative = some c) :
    putativeStage env args names w = Except.ok (env.importMatches c, w) := by
  simp [putativeStage, h]

theorem putativeStage_empty (env : Env) (args : Args) (names : List String) (w : World)
    (h : w.files Artifact.putative = none)
    (hload : env.matcherLoadData names (featureView env w.files names) = true)
    (hempty : selectPairs env args names.length = []) :
    putativeStage env args names w =
      Except.error (EXIT_FAILURE,
        { w with log := w.log ++ [Event.matcherLoadData, Event.pairSelection] }) := by
  simp [putativeStage, h, hload, hempty]

theorem putativeStage_loadFail (env : Env) (args : Args) (names : List String) (w : World)
    (h : w.files Artifact.putative = none)
    (hload : env.matcherLoadData names (featureView env w.files names) = false) :
    putativeStage env args names w =
      Except.ok ([], { w with log := w.log ++ [Event.matcherLoadData] }) := by
  simp [putativeStage, h, hload]

theorem putativeStage_match (env : Env) (args : Args) (names : List String) (w : World)
    (h : w.files Artifact.putative = none)
    (hload : env.matcherLoadData names (featureView env w.files names) = true)
    (hpairs : selectPairs env args names.length ≠ []) :
    putativeStage env args names w =
      Except.ok (env.matcherMatch args.fDistRatio names (featureView env w.files names)
          (selectPairs env args names.length),
        { w with
          files := writeFile w.files Artifact.putative
            (env.exportMatches (env.matcherMatch args.fDistRatio names
              (featureView env w.files names) (selectPairs env args names.length)))
          log := w.log ++ [Event.matcherLoadData, Event.pairSelection,
            Event.matcherMatch (selectPairs env args names.length),
            Event.write Artifact.putative] }) := by
  simp [putativeStage, h, hload, hpairs]

theorem geometricStage_ok (env : Env) (st : PipelineState) (put : PairWiseMatches) (w : World)
    (h : env.filterLoadData st.vec_fileNames (featureView env w.files st.vec_fileNames) = true) :
    geometricStage env st put w =
      { w with
        files := writeFile
          (writeFile w.files (Artifact.geometric st.model)
            (env.exportMatches (filterByModel env st w.files put)))
          Artifact.geometricSvg
          (env.adjacencySVG st.vec_fileNames.length (filterByModel env st w.files put))
        log := w.log ++ [Event.filterLoadData, Event.Filter st.model put st.vec_imagesSize,
          Event.write (Artifact.geometric st.model), Event.write Artifact.geometricSvg] } := by
  simp [geometricStage, h]

theorem geometricStage_loadFail (env : Env) (st : PipelineState) (put : PairWiseMatches)
    (w : World)
    (h : env.filterLoadData st.vec_fileNames (featureView env w.files st.vec_fileNames) = false) :
    geometricStage env st put w = { w with log := w.log ++ [Event.filterLoadData] } := by
  simp [geometricStage, h]

/-- The events of the geometric stage, and the files it leaves alone. -/
theorem geometricStage_effect (env : Env) (st : PipelineState) (put : PairWiseMatches)
    (w : World) :
    (∃ tail, (geometricStage env st put w).log = w.log ++ tail ∧
      ∀ e ∈ tail, e = Event.filterLoadData ∨ e = Event.Filter st.model put st.vec_imagesSize ∨
        e = Event.write (Artifact.geometric st.model) ∨ e = Event.write Artifact.geometricSvg) ∧
    (∀ a, a ≠ Artifact.geometric st.model → a ≠ Artifact.geometricSvg →
      (geometricStage env st put w).files a = w.files a) := by
  cases h : env.filterLoadData st.vec_fileNames (featureView env w.files st.vec_fileNames)
  · rw [geometricStage_loadFail env st put w h]
    exact ⟨⟨[Event.filterLoadData], rfl, by simp⟩, fun a _ _ => rfl⟩
  · rw [geometricStage_ok env st put w h]
    refine ⟨⟨_, rfl, by simp⟩, fun a h1 h2 => ?_⟩
    simp [writeFile, h1, h2]

theorem isPreludeEvent_other (e : Event) (h : isPreludeEvent e = true) :
    isMatcherEvent e = false ∧ e ≠ Event.write Artifact.putative ∧
      e ≠ Event.filterLoadData ∧ (∀ m put sizes, e ≠ Event.Filter m put sizes) ∧
      (∀ m, e ≠ Event.write (Artifact.geometric m)) := by
  cases e with
  | write a => cases a <;> simp_all [isPreludeEvent, isMatcherEvent]
  | _ => simp_all [isPreludeEvent, isMatcherEvent]

/-! ## Option checks -/

theorem string_length_ne_zero (s : String) : s.length ≠ 0 ↔ s ≠ "" := by
  cases s with
  | mk data =>
    cases data with
    | nil => simp [String.length]
    | cons c cs =>
      simp [String.length]
      intro h
      have := congrArg String.data h
      simp at this

theorem checkPairOptions_some (args : Args) (hlist : args.sPredefinedPairList ≠ "")
    (hvideo : 0 < args.iMatchingVideoMode) : checkPairOptions args = some EXIT_FAILURE := by
  simp [checkPairOptions, (string_length_ne_zero _).2 hlist, hvideo]

theorem checkPairOptions_none (args : Args)
    (h : ¬ (args.sPredefinedPairList ≠ "" ∧ 0 < args.iMatchingVideoMode)) :
    checkPairOptions args = none := by
  unfold checkPairOptions
  by_cases h1 : args.sPredefinedPairList.length ≠ 0
  · have h2 := (string_length_ne_zero _).1 h1
    have h3 : ¬ 0 < args.iMatchingVideoMode := fun h3 => h ⟨h2, h3⟩
    simp [h1, h3]
  · simp [h1]

/-- An empty output directory option makes main fail with the world untouched. -/
theorem main_outDir_empty (env : Env) (args : Args) (w : World) (h : args.sOutDir = "") :
    main env (some args) w = (EXIT_FAILURE, w) := by
  have he : args.sOutDir.isEmpty = true := by rw [h]; decide
  cases hc : checkPairOptions args with
  | none => simp [main, mainPrelude, hc, he]
  | some code =>
    have : code = EXIT_FAILURE := by
      unfold checkPairOptions at hc
      split at hc
      · split at hc
        · exact (Option.some.inj hc).symm
        · cases hc
      · cases hc
    simp [main, mainPrelude, hc, this]

/-- With valid options and no lists.txt, main returns the int of `false`. -/
theorem main_lists_missing (env : Env) (args : Args) (w : World) (model : eGeometricModel)
    (hc : checkPairOptions args = none) (ho : args.sOutDir.isEmpty = false)
    (hm : selectModel args.sGeometricModel = some model)
    (hl : w.files Artifact.lists = none) :
    main env (some args) w = (0, createOutDir w) := by
  have hl2 : (createOutDir w).files Artifact.lists = none := by rw [createOutDir_files]; exact hl
  simp [main, mainPrelude, hc, ho, hm, hl2, boolToInt]

/-- With valid options and a lists.txt that does not load, main returns the
int of `false`. -/
theorem main_lists_invalid (env : Env) (args : Args) (w : World) (model : eGeometricModel)
    (c : Content)
    (hc : checkPairOptions args = none) (ho : args.sOutDir.isEmpty = false)
    (hm : selectModel args.sGeometricModel = some model)
    (hl : w.files Artifact.lists = some c) (hload : env.loadImageList c = none) :
    main env (some args) w =
      (0, { createOutDir w with log := (createOutDir w).log ++ [Event.loadImageList] }) := by
  have hl2 : (createOutDir w).files Artifact.lists = some c := by
    rw [createOutDir_files]; exact hl
  simp [main, mainPrelude, hc, ho, hm, hl2, hload, boolToInt]

/-! ## The claims on main -/

/-- C7: when a predefined pair list is given and the sequence window is
positive, main returns the failure exit code with the world untouched (no
folder created, nothing read, no stage run), whatever the other options; when
at most one of the two is active, the check of the pair options falls
through. -/
theorem C7_pair_options_exclusive (env : Env) (args : Args) (w : World) :
    (args.sPredefinedPairList ≠ "" → 0 < args.iMatchingVideoMode →
      main env (some args) w = (EXIT_FAILURE, w) ∧ EXIT_FAILURE ≠ 0) ∧
    (¬ (args.sPredefinedPairList ≠ "" ∧ 0 < args.iMatchingVideoMode) →
      checkPairOptions args = none) := by
  refine ⟨fun hlist hvideo => ⟨?_, by decide⟩, checkPairOptions_none args⟩
  simp [main, mainPrelude, checkPairOptions_some args hlist hvideo]

/-- C7 at the command line `-i img -o out -v 2 -l pairs.txt` on a directory
that does not exist, and at the default command line. -/
theorem C7_pair_options_exclusive_witness :
    (main (demoEnv ["a.jpg"] []) (some conflictArgs) noFolder = (EXIT_FAILURE, noFolder) ∧
      EXIT_FAILURE ≠ 0) ∧
    checkPairOptions demoArgs = none :=
  ⟨(C7_pair_options_exclusive (demoEnv ["a.jpg"] []) conflictArgs noFolder).1
      (by decide) (by decide),
   (C7_pair_options_exclusive (demoEnv ["a.jpg"] []) demoArgs noFolder).2 (by decide)⟩

/-- C2: with the command line `-i img -o out`, when lists.txt is absent (the
output directory does not exist yet) main creates the folder, runs no stage
and returns 0, the success exit code; when lists.txt is empty main reads it,
runs no stage and returns 0 as well. -/
theorem C2_missing_image_list_returns_success :
    main (demoEnv ["a.jpg"] []) (some demoArgs) noFolder =
      (EXIT_SUCCESS, { noFolder with folder := true, log := [Event.folder_create] }) ∧
    main (demoEnv ["a.jpg"] []) (some demoArgs) emptyLists =
      (EXIT_SUCCESS, { emptyLists with log := [Event.loadImageList] }) := by
  constructor
  · rw [main_lists_missing _ demoArgs noFolder eGeometricModel.FUNDAMENTAL_MATRIX
      (by decide) (by decide) (by decide) rfl]
    rfl
  · rw [main_lists_invalid _ demoArgs emptyLists eGeometricModel.FUNDAMENTAL_MATRIX
      (Content.bytes []) (by decide) (by decide) (by decide) rfl rfl]
    rfl

/-- C8: with the command line `-o out` (no image directory) on an output
directory that holds a list of two images, main does not fail: it extracts the
features of both images, matches, filters and returns the success exit code. -/
theorem C8_empty_image_directory_accepted :
    noImaDirArgs.sImaDirectory = "" ∧
    (main (demoEnv ["a.jpg", "b.jpg"] []) (some noImaDirArgs) listsOnly).1 = EXIT_SUCCESS ∧
    (main (demoEnv ["a.jpg", "b.jpg"] []) (some noImaDirArgs) listsOnly).2.log =
      [Event.loadImageList,
       Event.detect "a.jpg", Event.write (Artifact.feat "a"), Event.write (Artifact.desc "a"),
       Event.detect "b.jpg", Event.write (Artifact.feat "b"), Event.write (Artifact.desc "b"),
       Event.matcherLoadData, Event.pairSelection, Event.matcherMatch [(0, 1)],
       Event.write Artifact.putative, Event.write Artifact.putativeSvg,
       Event.filterLoadData,
       Event.Filter eGeometricModel.FUNDAMENTAL_MATRIX [((0, 1), [(0, 0)])]
         [(640, 480), (640, 480)],
       Event.write (Artifact.geometric eGeometricModel.FUNDAMENTAL_MATRIX),
       Event.write Artifact.geometricSvg] := by
  decide

/-- C3: when matches.putative.txt exists as the putative stage starts, the
rest of main is the geometric stage run on what importing the file yields;
over the whole run no matcher call (loading its data, selecting pairs, Match)
is made and the file is not written: every new event is free of them, every
call of the filter receives the imported matches, and the file holds at the
end what it held. -/
theorem C3_putative_resume (env : Env) (args : Args) (w : World) (st : PipelineState)
    (c : Content) (hpre : mainPrelude env args w = Except.ok st)
    (hput : st.world.files Artifact.putative = some c) :
    main env (some args) w =
      (EXIT_SUCCESS,
        geometricStage env st (env.importMatches c)
          (exportPutativeAdjacency env st (env.importMatches c) st.world)) ∧
    (∃ tail, (main env (some args) w).2.log = w.log ++ tail ∧
      (∀ e ∈ tail, isMatcherEvent e = false ∧ e ≠ Event.write Artifact.putative) ∧
      (∀ m put sizes, Event.Filter m put sizes ∈ tail → put = env.importMatches c)) ∧
    (main env (some args) w).2.files Artifact.putative = some c := by
  have hmain : main env (some args) w =
      (EXIT_SUCCESS,
        geometricStage env st (env.importMatches c)
          (exportPutativeAdjacency env st (env.importMatches c) st.world)) := by
    rw [main_of_prelude_ok env args w st hpre]
    simp [mainStages, putativeStage_resume env args st.vec_fileNames st.world c hput]
  refine ⟨hmain, ?_, ?_⟩
  · obtain ⟨t0, h0, h0e⟩ := mainPrelude_log env args w st hpre
    obtain ⟨⟨t1, h1, h1e⟩, -⟩ := geometricStage_effect env st (env.importMatches c)
      (exportPutativeAdjacency env st (env.importMatches c) st.world)
    refine ⟨t0 ++ Event.write Artifact.putativeSvg :: t1, ?_, ?_, ?_⟩
    · rw [hmain]
      simp only [h1]
      simp [exportPutativeAdjacency, h0]
    · intro e he
      rcases List.mem_append.1 he with h | h
      · exact ⟨(isPreludeEvent_other e (h0e e h)).1, (isPreludeEvent_other e (h0e e h)).2.1⟩
      · rcases List.mem_cons.1 h with h | h
        · subst h; exact ⟨rfl, by simp⟩
        · rcases h1e e h with h | h | h | h <;> subst h <;> exact ⟨rfl, by simp⟩
    · intro m put sizes he
      rcases List.mem_append.1 he with h | h
      · exact absurd rfl ((isPreludeEvent_other _ (h0e _ h)).2.2.2.1 m put sizes)
      · rcases List.mem_cons.1 h with h | h
        · cases h
        · rcases h1e _ h with h | h | h | h
          · cases h
          · injection h with _ h2 _
          · cases h
          · cases h
  · rw [hmain]
    simp only
    rw [(geometricStage_effect env st (env.importMatches c)
      (exportPutativeAdjacency env st (env.importMatches c) st.world)).2 _ (by simp) (by simp)]
    simp [exportPutativeAdjacency, writeFile, hput]

/-- C3 on a directory left by an earlier run on two images. -/
theorem C3_putative_resume_witness :
    mainPrelude (demoEnv ["a.jpg", "b.jpg"] []) demoArgs rerunWorld =
      Except.ok (demoState ["a.jpg", "b.jpg"] [] demoArgs rerunWorld) ∧
    (main (demoEnv ["a.jpg", "b.jpg"] []) (some demoArgs) rerunWorld).2.files
      Artifact.putative = some (Content.matchText [((0, 1), [(0, 0)])]) :=
  ⟨rfl,
   (C3_putative_resume (demoEnv ["a.jpg", "b.jpg"] []) demoArgs rerunWorld
    (demoState ["a.jpg", "b.jpg"] [] demoArgs rerunWorld)
    (Content.matchText [((0, 1), [(0, 0)])]) rfl (by decide)).2.2⟩

/-- C6, as the code has it: from the start of the putative stage, when
matches.putative.txt is absent, the matcher loads its data and the pairs of the
active mode are empty, main returns the failure exit code at once: after the
load and the pair selection nothing is called and no file is written.  When
the file exists, or the load fails, no pairs are selected and main goes on
to the geometric stage and returns the success exit code. -/
theorem C6_empty_selection_aborts (env : Env) (args : Args) (w : World) (st : PipelineState)
    (hpre : mainPrelude env args w = Except.ok st) :
    (st.world.files Artifact.putative = none →
      env.matcherLoadData st.vec_fileNames
        (featureView env st.world.files st.vec_fileNames) = true →
      selectPairs env args st.vec_fileNames.length = [] →
      main env (some args) w =
        (EXIT_FAILURE,
          { st.world with
            log := st.world.log ++ [Event.matcherLoadData, Event.pairSelection] }) ∧
      EXIT_FAILURE ≠ 0) ∧
    (∀ c, st.world.files Artifact.putative = some c →
      main env (some args) w =
        (EXIT_SUCCESS,
          geometricStage env st (env.importMatches c)
            (exportPutativeAdjacency env st (env.importMatches c) st.world))) ∧
    (st.world.files Artifact.putative = none →
      env.matcherLoadData st.vec_fileNames
        (featureView env st.world.files st.vec_fileNames) = false →
      main env (some args) w =
        (EXIT_SUCCESS,
          geometricStage env st []
            (exportPutativeAdjacency env st []
              { st.world with log := st.world.log ++ [Event.matcherLoadData] }))) := by
  rw [main_of_prelude_ok env args w st hpre]
  refine ⟨fun hput hload hempty => ⟨?_, by decide⟩, fun c hput => ?_, fun hput hload => ?_⟩
  · simp [mainStages, putativeStage_empty env args st.vec_fileNames st.world hput hload hempty]
  · simp [mainStages, putativeStage_resume env args st.vec_fileNames st.world c hput]
  · simp [mainStages, putativeStage_loadFail env args st.vec_fileNames st.world hput hload]

/-- C6 on a list of one image: exhaustive selection is empty, and main
fails after the load and the pair selection. -/
theorem C6_empty_selection_aborts_witness :
    selectPairs (demoEnv ["a.jpg"] []) demoArgs 1 = [] ∧
    main (demoEnv ["a.jpg"] []) (some demoArgs) listsOnly =
      (EXIT_FAILURE,
        { (demoState ["a.jpg"] [] demoArgs listsOnly).world with
          log := (demoState ["a.jpg"] [] demoArgs listsOnly).world.log ++
            [Event.matcherLoadData, Event.pairSelection] }) :=
  ⟨by decide,
   ((C6_empty_selection_aborts (demoEnv ["a.jpg"] []) demoArgs listsOnly
      (demoState ["a.jpg"] [] demoArgs listsOnly) rfl).1
      (by decide) (by decide) (by decide)).1⟩

/-- C6 fails as stated: with one image and exhaustive matching the selected
pairs are empty, yet on a directory that holds matches.putative.txt main
returns the success exit code, calls the filter and writes matches.f.txt. -/
theorem C6_counterexample :
    selectPairs (demoEnv ["a.jpg"] []) demoArgs 1 = [] ∧
    (main (demoEnv ["a.jpg"] []) (some demoArgs) putativeOnly).1 = EXIT_SUCCESS ∧
    EXIT_SUCCESS ≠ EXIT_FAILURE ∧
    Event.Filter eGeometricModel.FUNDAMENTAL_MATRIX [] [(640, 480)] ∈
      (main (demoEnv ["a.jpg"] []) (some demoArgs) putativeOnly).2.log ∧
    Event.write (Artifact.geometric eGeometricModel.FUNDAMENTAL_MATRIX) ∈
      (main (demoEnv ["a.jpg"] []) (some demoArgs) putativeOnly).2.log := by
  decide

/-- C9, as the code has it: the geometric stage has no gate on its artifact.
In every run that reaches it, with `put` the putative matches, the filter loads
its data; when the load succeeds the estimator is called on `put` and the
artifact of the model is written with the exported result, whatever the
directory held; when the load fails nothing else is called and the artifact
stays as it was. -/
theorem C9_geometric_stage_always_runs (env : Env) (args : Args) (w : World)
    (st : PipelineState) (put : PairWiseMatches) (wp : World)
    (hpre : mainPrelude env args w = Except.ok st)
    (hstage : putativeStage env args st.vec_fileNames st.world = Except.ok (put, wp)) :
    (env.filterLoadData st.vec_fileNames
        (featureView env (exportPutativeAdjacency env st put wp).files st.vec_fileNames) = true →
      (main env (some args) w).2.log =
        (exportPutativeAdjacency env st put wp).log ++
          [Event.filterLoadData, Event.Filter st.model put st.vec_imagesSize,
           Event.write (Artifact.geometric st.model), Event.write Artifact.geometricSvg] ∧
      (main env (some args) w).2.files (Artifact.geometric st.model) =
        some (env.exportMatches
          (filterByModel env st (exportPutativeAdjacency env st put wp).files put))) ∧
    (env.filterLoadData st.vec_fileNames
        (featureView env (exportPutativeAdjacency env st put wp).files st.vec_fileNames) = false →
      (main env (some args) w).2.log =
        (exportPutativeAdjacency env st put wp).log ++ [Event.filterLoadData] ∧
      (main env (some args) w).2.files (Artifact.geometric st.model) =
        wp.files (Artifact.geometric st.model)) := by
  rw [main_of_prelude_ok env args w st hpre]
  simp only [mainStages, hstage]
  refine ⟨fun h => ?_, fun h => ?_⟩
  · rw [geometricStage_ok env st put _ h]
    simp [writeFile]
  · rw [geometricStage_loadFail env st put _ h]
    simp [exportPutativeAdjacency, writeFile]

/-- C9 on a directory that already holds matches.f.txt: the filter is called
and the file is written with the exported matches. -/
theorem C9_geometric_stage_always_runs_witness :
    (main (demoEnv ["a.jpg", "b.jpg"] []) (some demoArgs) rerunWorld).2.files
      (Artifact.geometric eGeometricModel.FUNDAMENTAL_MATRIX) =
      some (Content.matchText [((0, 1), [(0, 0)])]) :=
  ((C9_geometric_stage_always_runs (demoEnv ["a.jpg", "b.jpg"] []) demoArgs rerunWorld
    (demoState ["a.jpg", "b.jpg"] [] demoArgs rerunWorld) [((0, 1), [(0, 0)])]
    (demoState ["a.jpg", "b.jpg"] [] demoArgs rerunWorld).world rfl rfl).1 (by decide)).2

/-- C9 fails as stated: on a directory where matches.f.txt exists, the
estimator is called and the file ends with other contents. -/
theorem C9_counterexample :
    rerunWorld.files (Artifact.geometric eGeometricModel.FUNDAMENTAL_MATRIX) =
      some (Content.bytes [7]) ∧
    Event.Filter eGeometricModel.FUNDAMENTAL_MATRIX [((0, 1), [(0, 0)])]
        [(640, 480), (640, 480)] ∈
      (main (demoEnv ["a.jpg", "b.jpg"] []) (some demoArgs) rerunWorld).2.log ∧
    (main (demoEnv ["a.jpg", "b.jpg"] []) (some demoArgs) rerunWorld).2.files
        (Artifact.geometric eGeometricModel.FUNDAMENTAL_MATRIX) ≠
      rerunWorld.files (Artifact.geometric eGeometricModel.FUNDAMENTAL_MATRIX) := by
  decide

/-! ## The claims on extractFeaturesAndDescriptors -/

/-- C10, as the code has it: when the image `f`, reached after the images
`pre`, has not both artifacts and fails to decode, its iteration changes
nothing (no detector call, no file written, size table and buffers as they
were), and the loop goes on: the images `post` after it are processed, from
the next index, on exactly the state the images before it left. -/
theorem C10_decode_failure_skips (env : Env) (pre post : List String) (f : String) (i : Nat)
    (s : ExtractState)
    (hc : cached env (extractLoop env pre i s).files f = false)
    (hg : env.readGray f = none) :
    extractStep env f (i + pre.length) (extractLoop env pre i s) = extractLoop env pre i s ∧
    extractLoop env (pre ++ f :: post) i s =
      extractLoop env post (i + pre.length + 1) (extractLoop env pre i s) := by
  have hstep := extractStep_fresh_fail env f (i + pre.length) (extractLoop env pre i s) hc hg
  refine ⟨hstep, ?_⟩
  rw [extractLoop_append]
  simp only [extractLoop]
  rw [hstep]

/-- C10 on three images of which the second does not decode. -/
theorem C10_decode_failure_skips_witness :
    extractLoop (demoEnv [] ["img/b.jpg"]) (["img/a.jpg"] ++ "img/b.jpg" :: ["img/c.jpg"]) 0
        { files := fun _ => none, log := [], imageRGB := (0, 0), imageGray := (0, 0),
          vec_imagesSize := [(1, 1), (2, 2), (3, 3)] } =
      extractLoop (demoEnv [] ["img/b.jpg"]) ["img/c.jpg"] (0 + 1 + 1)
        (extractLoop (demoEnv [] ["img/b.jpg"]) ["img/a.jpg"] 0
          { files := fun _ => none, log := [], imageRGB := (0, 0), imageGray := (0, 0),
            vec_imagesSize := [(1, 1), (2, 2), (3, 3)] }) :=
  (C10_decode_failure_skips (demoEnv [] ["img/b.jpg"]) ["img/a.jpg"] ["img/c.jpg"] "img/b.jpg" 0
    { files := fun _ => none, log := [], imageRGB := (0, 0), imageGray := (0, 0),
      vec_imagesSize := [(1, 1), (2, 2), (3, 3)] } (by decide) (by decide)).2

/-- C10 fails as stated: of the images `img/a.jpg` and `img/a.png`, which
share the base name `a`, let the first fail to decode: the detector is then
called on the second; had the first decoded, its files would have made the
second a cached image, and the detector would not have been called on it. -/
theorem C10_counterexample :
    cached (demoEnv [] ["img/a.jpg"]) (fun _ => none) "img/a.jpg" = false ∧
    (demoEnv [] ["img/a.jpg"]).readGray "img/a.jpg" = none ∧
    (demoEnv [] ["img/a.jpg"]).readGray "img/a.png" = (demoEnv [] []).readGray "img/a.png" ∧
    Event.detect "img/a.png" ∈
      (extractFeaturesAndDescriptors (demoEnv [] ["img/a.jpg"]) ["img/a.jpg", "img/a.png"]
        (fun _ => none) [] []).log ∧
    Event.detect "img/a.png" ∉
      (extractFeaturesAndDescriptors (demoEnv [] []) ["img/a.jpg", "img/a.png"]
        (fun _ => none) [] []).log := by
  decide

/-! ## Running main a second time -/

theorem sameFeatures_refl (f : Files) : sameFeatures f f := fun _ => ⟨rfl, rfl⟩

theorem sameFeatures_trans (f1 f2 f3 : Files) (h1 : sameFeatures f1 f2) (h2 : sameFeatures f2 f3) :
    sameFeatures f1 f3 :=
  fun b => ⟨(h1 b).1.trans (h2 b).1, (h1 b).2.trans (h2 b).2⟩

theorem sameFeatures_symm (f1 f2 : Files) (h : sameFeatures f1 f2) : sameFeatures f2 f1 :=
  fun b => ⟨(h b).1.symm, (h b).2.symm⟩

theorem sameFeatures_writeFile (files : Files) (a : Artifact) (c : Content)
    (h : isFeatureFile a = false) : sameFeatures (writeFile files a c) files := by
  intro b
  cases a <;> simp_all [isFeatureFile, writeFile]

theorem featureView_congr (env : Env) (f1 f2 : Files) (names : List String)
    (h : sameFeatures f1 f2) : featureView env f1 names = featureView env f2 names := by
  unfold featureView
  apply List.map_congr_left
  intro f _
  rw [(h _).1, (h _).2]

theorem cached_congr (env : Env) (f1 f2 : Files) (g : String) (h : sameFeatures f1 f2) :
    cached env f1 g = cached env f2 g := by
  unfold cached file_exists
  rw [(h _).1, (h _).2]

theorem createOutDir_folder (w : World) : (createOutDir w).folder = true := by
  unfold createOutDir
  by_cases hf : w.folder <;> simp [hf]

theorem createOutDir_of_folder (w : World) (h : w.folder = true) : createOutDir w = w := by
  simp [createOutDir, h]

/-- The files of the geometric stage, key by key. -/
theorem geometricStage_files (env : Env) (st : PipelineState) (put : PairWiseMatches)
    (w : World) (a : Artifact) :
    (geometricStage env st put w).files a =
      if env.filterLoadData st.vec_fileNames (featureView env w.files st.vec_fileNames) = true then
        (if a = Artifact.geometricSvg then
          some (env.adjacencySVG st.vec_fileNames.length (filterByModel env st w.files put))
        else if a = Artifact.geometric st.model then
          some (env.exportMatches (filterByModel env st w.files put))
        else w.files a)
      else w.files a := by
  cases h : env.filterLoadData st.vec_fileNames (featureView env w.files st.vec_fileNames)
  · rw [geometricStage_loadFail env st put w h]
    simp
  · rw [geometricStage_ok env st put w h]
    simp [writeFile]

theorem geometricStage_folder (env : Env) (st : PipelineState) (put : PairWiseMatches)
    (w : World) : (geometricStage env st put w).folder = w.folder := by
  cases h : env.filterLoadData st.vec_fileNames (featureView env w.files st.vec_fileNames)
  · rw [geometricStage_loadFail env st put w h]
  · rw [geometricStage_ok env st put w h]

theorem geometricStage_sameFeatures (env : Env) (st : PipelineState) (put : PairWiseMatches)
    (w : World) : sameFeatures (geometricStage env st put w).files w.files := by
  intro b
  rw [geometricStage_files, geometricStage_files]
  constructor <;> split <;> simp

theorem filterByModel_congr (env : Env) (st : PipelineState) (w2 : World) (f1 f2 : Files)
    (put : PairWiseMatches) (h : sameFeatures f1 f2) :
    filterByModel env { st with world := w2 } f1 put = filterByModel env st f2 put := by
  unfold filterByModel
  simp only [featureView_congr env f1 f2 st.vec_fileNames h]

theorem exportPutativeAdjacency_sameFeatures (env : Env) (st : PipelineState)
    (put : PairWiseMatches) (w : World) :
    sameFeatures (exportPutativeAdjacency env st put w).files w.files :=
  sameFeatures_writeFile _ _ _ rfl

/-- A second geometric stage, on the same putative matches and the same
feature files, leaves the geometric match files as the first one did. -/
theorem geometricStage_rerun (env : Env) (st : PipelineState) (put : PairWiseMatches)
    (wa wb w2 : World) (hsame : sameFeatures wb.files wa.files)
    (hgeo : ∀ m, wb.files (Artifact.geometric m) =
      (geometricStage env st put wa).files (Artifact.geometric m)) (m : eGeometricModel) :
    (geometricStage env { st with world := w2 } put wb).files (Artifact.geometric m) =
      (geometricStage env st put wa).files (Artifact.geometric m) := by
  rw [geometricStage_files]
  simp only [featureView_congr env wb.files wa.files st.vec_fileNames hsame,
    filterByModel_congr env st w2 wb.files wa.files put hsame]
  by_cases hl : env.filterLoadData st.vec_fileNames (featureView env wa.files st.vec_fileNames) = true
  · by_cases hm : m = st.model
    · subst hm
      rw [geometricStage_files]
      simp [hl]
    · simp only [hl, if_true]
      rw [hgeo m]
      simp [hm]
  · simp only [hl, if_false]
    exact hgeo m

theorem geometricStage_putative (env : Env) (st : PipelineState) (put : PairWiseMatches)
    (w : World) :
    (geometricStage env st put w).files Artifact.putative = w.files Artifact.putative := by
  rw [geometricStage_files]
  split <;> simp

/-- The tail of the log that the two last stages add has no detector call and
no Match call. -/
theorem lateStages_log (env : Env) (st : PipelineState) (put : PairWiseMatches) (w : World)
    (pre : List Event)
    (hpre : ∀ e ∈ pre, (∀ f, e ≠ Event.detect f) ∧ (∀ p, e ≠ Event.matcherMatch p))
    (L : List Event) (hw : w.log = L ++ pre) :
    ∃ tail, (geometricStage env st put (exportPutativeAdjacency env st put w)).log = L ++ tail ∧
      ∀ e ∈ tail, (∀ f, e ≠ Event.detect f) ∧ (∀ p, e ≠ Event.matcherMatch p) := by
  obtain ⟨⟨t, ht, hte⟩, -⟩ := geometricStage_effect env st put
    (exportPutativeAdjacency env st put w)
  refine ⟨pre ++ Event.write Artifact.putativeSvg :: t, ?_, ?_⟩
  · rw [ht]
    simp [exportPutativeAdjacency, hw]
  · intro e he
    rcases List.mem_append.1 he with h | h
    · exact hpre e h
    · rcases List.mem_cons.1 h with h | h
      · subst h; simp
      · rcases hte e h with h | h | h | h <;> subst h <;> simp

/-- The stages after the prelude, run again on the files a first run left:
same exit code, no detector call and no Match call, and the putative and the
geometric match files end as the first run left them. -/
theorem mainStages_rerun (env : Env) (args : Args) (st : PipelineState) (w2 : World)
    (hw2 : w2.files = (mainStages env args st).2.files)
    (hrt : ∀ m, env.importMatches (env.exportMatches m) = m) :
    (mainStages env args { st with world := w2 }).1 = (mainStages env args st).1 ∧
    (∃ tail, (mainStages env args { st with world := w2 }).2.log = w2.log ++ tail ∧
      ∀ e ∈ tail, (∀ f, e ≠ Event.detect f) ∧ (∀ p, e ≠ Event.matcherMatch p)) ∧
    (mainStages env args { st with world := w2 }).2.files Artifact.putative =
      (mainStages env args st).2.files Artifact.putative ∧
    ∀ m, (mainStages env args { st with world := w2 }).2.files (Artifact.geometric m) =
      (mainStages env args st).2.files (Artifact.geometric m) := by
  cases hP : st.world.files Artifact.putative with
  | some c =>
    -- the first run imported the file
    have h1 : mainStages env args st =
        (EXIT_SUCCESS, geometricStage env st (env.importMatches c)
          (exportPutativeAdjacency env st (env.importMatches c) st.world)) := by
      simp [mainStages, putativeStage_resume env args st.vec_fileNames st.world c hP]
    rw [h1] at hw2 ⊢
    simp only at hw2
    have hP2 : w2.files Artifact.putative = some c := by
      rw [hw2, geometricStage_putative]
      simp [exportPutativeAdjacency, writeFile, hP]
    have h2 : mainStages env args { st with world := w2 } =
        (EXIT_SUCCESS, geometricStage env { st with world := w2 } (env.importMatches c)
          (exportPutativeAdjacency env { st with world := w2 } (env.importMatches c) w2)) := by
      simp [mainStages, putativeStage_resume env args st.vec_fileNames w2 c hP2]
    rw [h2]
    refine ⟨rfl, ?_, ?_, ?_⟩
    · exact lateStages_log env _ _ _ [] (by simp) w2.log (by simp)
    · simp only
      rw [geometricStage_putative, geometricStage_putative]
      simp [exportPutativeAdjacency, writeFile, hP2, hP]
    · intro m
      apply geometricStage_rerun
      · rw [show (exportPutativeAdjacency env { st with world := w2 } (env.importMatches c)
            w2).files = writeFile w2.files Artifact.putativeSvg
              (env.adjacencySVG st.vec_fileNames.length (env.importMatches c)) from rfl, hw2]
        exact sameFeatures_trans _ _ _ (sameFeatures_writeFile _ _ _ rfl)
          (geometricStage_sameFeatures _ _ _ _)
      · intro m2
        simp [exportPutativeAdjacency, writeFile, hw2]
  | none =>
    cases hload : env.matcherLoadData st.vec_fileNames
        (featureView env st.world.files st.vec_fileNames) with
    | false =>
      have h1 : mainStages env args st =
          (EXIT_SUCCESS, geometricStage env st []
            (exportPutativeAdjacency env st []
              { st.world with log := st.world.log ++ [Event.matcherLoadData] })) := by
        simp [mainStages, putativeStage_loadFail env args st.vec_fileNames st.world hP hload]
      rw [h1] at hw2 ⊢
      simp only at hw2
      have hsf : sameFeatures w2.files st.world.files := by
        rw [hw2]
        exact sameFeatures_trans _ _ _ (geometricStage_sameFeatures _ _ _ _)
          (exportPutativeAdjacency_sameFeatures _ _ _ _)
      have hP2 : w2.files Artifact.putative = none := by
        rw [hw2, geometricStage_putative]
        simp [exportPutativeAdjacency, writeFile, hP]
      have hload2 : env.matcherLoadData st.vec_fileNames
          (featureView env w2.files st.vec_fileNames) = false := by
        rw [featureView_congr env _ _ _ hsf]; exact hload
      have h2 : mainStages env args { st with world := w2 } =
          (EXIT_SUCCESS, geometricStage env { st with world := w2 } []
            (exportPutativeAdjacency env { st with world := w2 } []
              { w2 with log := w2.log ++ [Event.matcherLoadData] })) := by
        simp [mainStages, putativeStage_loadFail env args st.vec_fileNames w2 hP2 hload2]
      rw [h2]
      refine ⟨rfl, ?_, ?_, ?_⟩
      · exact lateStages_log env _ _ _ [Event.matcherLoadData] (by simp) w2.log (by simp)
      · simp only
        rw [geometricStage_putative, geometricStage_putative]
        simp [exportPutativeAdjacency, writeFile, hP2, hP]
      · intro m
        apply geometricStage_rerun
        · rw [show (exportPutativeAdjacency env { st with world := w2 } []
              { w2 with log := w2.log ++ [Event.matcherLoadData] }).files =
                writeFile w2.files Artifact.putativeSvg
                  (env.adjacencySVG st.vec_fileNames.length []) from rfl, hw2]
          exact sameFeatures_trans _ _ _ (sameFeatures_writeFile _ _ _ rfl)
            (geometricStage_sameFeatures _ _ _ _)
        · intro m2
          simp [exportPutativeAdjacency, writeFile, hw2]
    | true =>
      by_cases hpairs : selectPairs env args st.vec_fileNames.length = []
      · have h1 : mainStages env args st =
            (EXIT_FAILURE,
              { st.world with
                log := st.world.log ++ [Event.matcherLoadData, Event.pairSelection] }) := by
          simp [mainStages, putativeStage_empty env args st.vec_fileNames st.world hP hload hpairs]
        rw [h1] at hw2 ⊢
        simp only at hw2
        have hP2 : w2.files Artifact.putative = none := by rw [hw2]; exact hP
        have hload2 : env.matcherLoadData st.vec_fileNames
            (featureView env w2.files st.vec_fileNames) = true := by
          rw [hw2]; exact hload
        have h2 : mainStages env args { st with world := w2 } =
            (EXIT_FAILURE,
              { w2 with log := w2.log ++ [Event.matcherLoadData, Event.pairSelection] }) := by
          simp [mainStages, putativeStage_empty env args st.vec_fileNames w2 hP2 hload2 hpairs]
        rw [h2]
        refine ⟨rfl, ⟨[Event.matcherLoadData, Event.pairSelection], rfl, by simp⟩, ?_, ?_⟩
        · simp [hw2]
        · intro m; simp [hw2]
      · have h1 := putativeStage_match env args st.vec_fileNames st.world hP hload hpairs
        generalize hM : env.matcherMatch args.fDistRatio st.vec_fileNames
          (featureView env st.world.files st.vec_fileNames)
          (selectPairs env args st.vec_fileNames.length) = M at h1
        generalize hW : ({ st.world with
            files := writeFile st.world.files Artifact.putative (env.exportMatches M)
            log := st.world.log ++ [Event.matcherLoadData, Event.pairSelection,
              Event.matcherMatch (selectPairs env args st.vec_fileNames.length),
              Event.write Artifact.putative] } : World) = wp at h1
        have hm1 : mainStages env args st =
            (EXIT_SUCCESS, geometricStage env st M (exportPutativeAdjacency env st M wp)) := by
          simp only [mainStages, h1]
        rw [hm1] at hw2 ⊢
        simp only at hw2
        have hwp : wp.files Artifact.putative = some (env.exportMatches M) := by
          rw [← hW]; simp [writeFile]
        have hP2 : w2.files Artifact.putative = some (env.exportMatches M) := by
          rw [hw2, geometricStage_putative]
          simp [exportPutativeAdjacency, writeFile, hwp]
        have h2 : mainStages env args { st with world := w2 } =
            (EXIT_SUCCESS, geometricStage env { st with world := w2 } M
              (exportPutativeAdjacency env { st with world := w2 } M w2)) := by
          simp [mainStages, putativeStage_resume env args st.vec_fileNames w2 _ hP2, hrt]
        rw [h2]
        refine ⟨rfl, ?_, ?_, ?_⟩
        · exact lateStages_log env _ _ _ [] (by simp) w2.log (by simp)
        · simp only
          rw [geometricStage_putative, geometricStage_putative]
          simp [exportPutativeAdjacency, writeFile, hP2, hwp]
        · intro m
          apply geometricStage_rerun
          · rw [show (exportPutativeAdjacency env { st with world := w2 } M w2).files =
                writeFile w2.files Artifact.putativeSvg
                  (env.adjacencySVG st.vec_fileNames.length M) from rfl, hw2]
            exact sameFeatures_trans _ _ _ (sameFeatures_writeFile _ _ _ rfl)
              (geometricStage_sameFeatures _ _ _ _)
          · intro m2
            simp [exportPutativeAdjacency, writeFile, hw2]

theorem keeps_refl (w : World) : keeps w w := ⟨rfl, sameFeatures_refl _, rfl⟩

theorem keeps_trans (w3 w2 w1 : World) (h1 : keeps w3 w2) (h2 : keeps w2 w1) : keeps w3 w1 :=
  ⟨h1.1.trans h2.1, sameFeatures_trans _ _ _ h1.2.1 h2.2.1, h1.2.2.trans h2.2.2⟩

theorem keeps_log (w : World) (l : List Event) : keeps { w with log := l } w :=
  ⟨rfl, sameFeatures_refl _, rfl⟩

theorem exportPutativeAdjacency_keeps (env : Env) (st : PipelineState) (put : PairWiseMatches)
    (w : World) : keeps (exportPutativeAdjacency env st put w) w :=
  ⟨rfl, exportPutativeAdjacency_sameFeatures env st put w, by
    simp [exportPutativeAdjacency, writeFile]⟩

theorem geometricStage_keeps (env : Env) (st : PipelineState) (put : PairWiseMatches)
    (w : World) : keeps (geometricStage env st put w) w :=
  ⟨geometricStage_folder env st put w, geometricStage_sameFeatures env st put w, by
    rw [geometricStage_files]; split <;> simp⟩

theorem mainStages_keeps (env : Env) (args : Args) (st : PipelineState) :
    keeps (mainStages env args st).2 st.world := by
  cases hP : st.world.files Artifact.putative with
  | some c =>
    simp only [mainStages, putativeStage_resume env args st.vec_fileNames st.world c hP]
    exact keeps_trans _ _ _ (geometricStage_keeps _ _ _ _) (exportPutativeAdjacency_keeps _ _ _ _)
  | none =>
    cases hload : env.matcherLoadData st.vec_fileNames
        (featureView env st.world.files st.vec_fileNames) with
    | false =>
      simp only [mainStages, putativeStage_loadFail env args st.vec_fileNames st.world hP hload]
      exact keeps_trans _ _ _ (geometricStage_keeps _ _ _ _)
        (keeps_trans _ _ _ (exportPutativeAdjacency_keeps _ _ _ _) (keeps_log _ _))
    | true =>
      by_cases hpairs : selectPairs env args st.vec_fileNames.length = []
      · simp only [mainStages,
          putativeStage_empty env args st.vec_fileNames st.world hP hload hpairs]
        exact keeps_log _ _
      · simp only [mainStages,
          putativeStage_match env args st.vec_fileNames st.world hP hload hpairs]
        refine keeps_trans _ _ _ (geometricStage_keeps _ _ _ _)
          (keeps_trans _ _ _ (exportPutativeAdjacency_keeps _ _ _ _) ?_)
        exact ⟨rfl, sameFeatures_writeFile _ _ _ rfl, by simp [writeFile]⟩

theorem extractStep_files_other (env : Env) (f : String) (i : Nat) (s : ExtractState)
    (a : Artifact) (h : isFeatureFile a = false) : (extractStep env f i s).files a = s.files a := by
  cases hc : cached env s.files f
  · cases hg : env.readGray f with
    | none => rw [extractStep_fresh_fail env f i s hc hg]
    | some d =>
      rw [extractStep_fresh_ok env f i s d hc hg]
      cases a <;> simp_all [isFeatureFile, writeFile]
  · cases hr : env.readRGB f with
    | some d => rw [extractStep_cached_rgb env f i s d hc hr]
    | none =>
      cases hg : env.readGray f with
      | none => rw [extractStep_cached_none env f i s hc hr hg]
      | some d => rw [extractStep_cached_gray env f i s d hc hr hg]

theorem extractLoop_files_other (env : Env) (fs : List String) (a : Artifact)
    (h : isFeatureFile a = false) :
    ∀ (i : Nat) (s : ExtractState), (extractLoop env fs i s).files a = s.files a := by
  induction fs with
  | nil => intro i s; rfl
  | cons f fs ih =>
    intro i s
    simp only [extractLoop]
    rw [ih, extractStep_files_other env f i s a h]

/-- The size entry of an image that decodes is its decoded size, in every
branch. -/
theorem extractStep_sizes (env : Env) (f : String) (i : Nat) (s : ExtractState)
    (h : decodes env f) :
    ∃ d, (extractStep env f i s).vec_imagesSize = s.vec_imagesSize.set i d ∧
      env.readGray f = some d := by
  obtain ⟨d, hg, hrgb⟩ := h
  refine ⟨d, ?_, hg⟩
  cases hc : cached env s.files f
  · rw [extractStep_fresh_ok env f i s d hc hg]
  · cases hr : env.readRGB f with
    | some d2 =>
      rw [extractStep_cached_rgb env f i s d2 hc hr, hrgb d2 hr]
    | none => rw [extractStep_cached_gray env f i s d hc hr hg]

theorem extractLoop_sizes_indep (env : Env) (fs : List String) :
    ∀ (i : Nat) (s t : ExtractState), s.vec_imagesSize = t.vec_imagesSize →
      (∀ f ∈ fs, decodes env f) →
      (extractLoop env fs i s).vec_imagesSize = (extractLoop env fs i t).vec_imagesSize := by
  induction fs with
  | nil => intro i s t h _; exact h
  | cons f fs ih =>
    intro i s t h hdec
    simp only [extractLoop]
    apply ih
    · obtain ⟨d1, h1, hg1⟩ := extractStep_sizes env f i s (hdec f (List.mem_cons_self _ _))
      obtain ⟨d2, h2, hg2⟩ := extractStep_sizes env f i t (hdec f (List.mem_cons_self _ _))
      have : d1 = d2 := Option.some.inj (hg1.symm.trans hg2)
      rw [h1, h2, h, this]
    · exact fun g hg => hdec g (List.mem_cons_of_mem _ hg)

theorem extractStage_world (env : Env) (args : Args) (model : eGeometricModel)
    (cams : List CameraInfo) (groups : List IntrinsicCameraInfo) (w : World) :
    (extractStage env args model cams groups w).world.folder = w.folder ∧
    (extractStage env args model cams groups w).world.files Artifact.lists =
      w.files Artifact.lists := by
  refine ⟨rfl, ?_⟩
  simp only [extractStage, extractFeaturesAndDescriptors]
  exact extractLoop_files_other env _ Artifact.lists rfl _ _

/-- The prelude of a second run, on a world that kept the folder, lists.txt
and the feature files of a first run whose images all decode: it succeeds
with the same state, calls no detector and writes no file. -/
theorem mainPrelude_rerun (env : Env) (args : Args) (w : World) (st : PipelineState)
    (hpre : mainPrelude env args w = Except.ok st)
    (hdec : ∀ f ∈ st.vec_fileNames, decodes env f)
    (w1 : World) (hk : keeps w1 st.world) :
    mainPrelude env args w1 =
      Except.ok { st with world := { w1 with log := w1.log ++ [Event.loadImageList] } } := by
  obtain ⟨model, c, cams, groups, h1, h2, h3, h4, h5, hst⟩ := mainPrelude_ok env args w st hpre
  have hw := extractStage_world env args model cams groups
    { createOutDir w with log := (createOutDir w).log ++ [Event.loadImageList] }
  rw [← hst] at hw
  have hfold : w1.folder = true := by
    rw [hk.1, hw.1]; exact createOutDir_folder w
  have hlists : w1.files Artifact.lists = some c := by
    rw [hk.2.2, hw.2]; exact h4
  have hcr : createOutDir w1 = w1 := createOutDir_of_folder w1 hfold
  unfold mainPrelude
  simp only [h1, h2, h3, hcr, hlists, h5]
  simp only [Bool.false_eq_true, if_false]
  congr 1
  subst hst
  simp only [extractStage, extractFeaturesAndDescriptors] at hdec hk ⊢
  have hidle := extractLoop_idle env
    (cams.map (fun cam => env.create_filespec args.sImaDirectory cam.m_sImageName)) 0
    { files := w1.files, log := w1.log ++ [Event.loadImageList],
      imageRGB := (0, 0), imageGray := (0, 0),
      vec_imagesSize := resize (cams.map (fun cam =>
        ((groups.getD cam.m_intrinsicId default).m_w,
         (groups.getD cam.m_intrinsicId default).m_h))) (cams.map (fun cam =>
          env.create_filespec args.sImaDirectory cam.m_sImageName)).length }
    (fun g hg d hd => by
      rw [cached_congr env _ _ g hk.2.1]
      exact extractLoop_ensures env _ 0 _ g d hg hd)
  have hsz := extractLoop_sizes_indep env
    (cams.map (fun cam => env.create_filespec args.sImaDirectory cam.m_sImageName)) 0
    { files := w1.files, log := w1.log ++ [Event.loadImageList],
      imageRGB := (0, 0), imageGray := (0, 0),
      vec_imagesSize := resize (cams.map (fun cam =>
        ((groups.getD cam.m_intrinsicId default).m_w,
         (groups.getD cam.m_intrinsicId default).m_h))) (cams.map (fun cam =>
          env.create_filespec args.sImaDirectory cam.m_sImageName)).length }
    { files := (createOutDir w).files, log := (createOutDir w).log ++ [Event.loadImageList],
      imageRGB := (0, 0), imageGray := (0, 0),
      vec_imagesSize := resize (cams.map (fun cam =>
        ((groups.getD cam.m_intrinsicId default).m_w,
         (groups.getD cam.m_intrinsicId default).m_h))) (cams.map (fun cam =>
          env.create_filespec args.sImaDirectory cam.m_sImageName)).length }
    rfl hdec
  simp only [PipelineState.mk.injEq, World.mk.injEq, true_and]
  exact ⟨hsz, hidle.1, hidle.2⟩

/-- A second run after a first one that stopped in the prelude stops at the
same place: same exit code, same files, at most the image list read again. -/
theorem mainPrelude_error_rerun (env : Env) (args : Args) (w : World) (r : Int × World)
    (h : mainPrelude env args w = Except.error r) :
    ∃ tail, main env (some args) r.2 = (r.1, { r.2 with log := r.2.log ++ tail }) ∧
      ∀ e ∈ tail, e = Event.loadImageList := by
  unfold mainPrelude at h
  cases h1 : checkPairOptions args with
  | some code =>
    simp only [h1] at h
    cases h
    exact ⟨[], by simp [main, mainPrelude, h1], by simp⟩
  | none =>
    cases h2 : args.sOutDir.isEmpty with
    | true =>
      simp only [h1, h2, if_true] at h
      cases h
      exact ⟨[], by simp [main, mainPrelude, h1, h2], by simp⟩
    | false =>
      cases h3 : selectModel args.sGeometricModel with
      | none =>
        simp only [h1, h2, h3, Bool.false_eq_true, if_false] at h
        cases h
        exact ⟨[], by simp [main, mainPrelude, h1, h2, h3], by simp⟩
      | some model =>
        have hcr : createOutDir (createOutDir w) = createOutDir w :=
          createOutDir_of_folder _ (createOutDir_folder w)
        cases h4 : (createOutDir w).files Artifact.lists with
        | none =>
          simp only [h1, h2, h3, h4, Bool.false_eq_true, if_false] at h
          cases h
          refine ⟨[], ?_, by simp⟩
          simp [main, mainPrelude, h1, h2, h3, hcr, h4]
        | some c =>
          cases h5 : env.loadImageList c with
          | none =>
            simp only [h1, h2, h3, h4, h5, Bool.false_eq_true, if_false] at h
            cases h
            refine ⟨[Event.loadImageList], ?_, by simp⟩
            have hcr2 : createOutDir
                { createOutDir w with log := (createOutDir w).log ++ [Event.loadImageList] } =
                { createOutDir w with log := (createOutDir w).log ++ [Event.loadImageList] } :=
              createOutDir_of_folder _ (createOutDir_folder w)
            simp [main, mainPrelude, h1, h2, h3, hcr2, h4, h5]
          | some p =>
            obtain ⟨cams, groups⟩ := p
            simp [h1, h2, h3, h4, h5] at h

theorem listedImages_of_prelude (env : Env) (args : Args) (w : World) (st : PipelineState)
    (hpre : mainPrelude env args w = Except.ok st) :
    st.vec_fileNames = listedImages env args w := by
  obtain ⟨model, c, cams, groups, -, -, -, h4, h5, hst⟩ := mainPrelude_ok env args w st hpre
  rw [createOutDir_files] at h4
  subst hst
  simp [listedImages, h4, h5, extractStage]

/-- C5, as the code has it: let the writer and the reader of match sets
round-trip and let every listed image decode (with the same size as a gray
and as an RGB image).  Then a second run of main on what a first run left
returns the same exit code, calls neither the detector nor Match, and the
putative and the geometric match files end as the first run left them.  (The
geometric stage itself is run again.) -/
theorem C5_second_run (env : Env) (args : Args) (w : World)
    (hrt : ∀ m, env.importMatches (env.exportMatches m) = m)
    (hdec : ∀ f ∈ listedImages env args w, decodes env f) :
    (main env (some args) (main env (some args) w).2).1 = (main env (some args) w).1 ∧
    (∃ tail,
      (main env (some args) (main env (some args) w).2).2.log =
        (main env (some args) w).2.log ++ tail ∧
      ∀ e ∈ tail, (∀ f, e ≠ Event.detect f) ∧ (∀ p, e ≠ Event.matcherMatch p)) ∧
    (main env (some args) (main env (some args) w).2).2.files Artifact.putative =
      (main env (some args) w).2.files Artifact.putative ∧
    ∀ m, (main env (some args) (main env (some args) w).2).2.files (Artifact.geometric m) =
      (main env (some args) w).2.files (Artifact.geometric m) := by
  cases hpre : mainPrelude env args w with
  | error r =>
    obtain ⟨tail, h2, hte⟩ := mainPrelude_error_rerun env args w r hpre
    have h1 : main env (some args) w = r := by simp [main, hpre]
    rw [h1, h2]
    refine ⟨rfl, ⟨tail, rfl, ?_⟩, rfl, fun m => rfl⟩
    intro e he
    rw [hte e he]
    simp
  | ok st =>
    have h1 : main env (some args) w = mainStages env args st :=
      main_of_prelude_ok env args w st hpre
    have hdec2 : ∀ f ∈ st.vec_fileNames, decodes env f := by
      rw [listedImages_of_prelude env args w st hpre]; exact hdec
    have hpre2 := mainPrelude_rerun env args w st hpre hdec2 (mainStages env args st).2
      (mainStages_keeps env args st)
    have h2 : main env (some args) (mainStages env args st).2 =
        mainStages env args
          { st with world :=
            { (mainStages env args st).2 with
              log := (mainStages env args st).2.log ++ [Event.loadImageList] } } :=
      main_of_prelude_ok env args _ _ hpre2
    rw [h1, h2]
    obtain ⟨hc, ⟨tail, hl, hte⟩, hp, hg⟩ := mainStages_rerun env args st
      { (mainStages env args st).2 with
        log := (mainStages env args st).2.log ++ [Event.loadImageList] } rfl hrt
    refine ⟨hc, ⟨Event.loadImageList :: tail, ?_, ?_⟩, hp, hg⟩
    · rw [hl]; simp
    · intro e he
      rcases List.mem_cons.1 he with h | h
      · subst h; simp
      · exact hte e h

/-- C5 on two images that decode, from a directory that holds lists.txt only. -/
theorem C5_second_run_witness :
    (main (demoEnv ["a.jpg", "b.jpg"] []) (some demoArgs)
        (main (demoEnv ["a.jpg", "b.jpg"] []) (some demoArgs) listsOnly).2).2.files
      Artifact.putative =
      (main (demoEnv ["a.jpg", "b.jpg"] []) (some demoArgs) listsOnly).2.files
        Artifact.putative :=
  (C5_second_run (demoEnv ["a.jpg", "b.jpg"] []) demoArgs listsOnly (fun _ => rfl)
    (by
      intro f hf
      have hf2 : f = "img/a.jpg" ∨ f = "img/b.jpg" := by
        simpa [listedImages, listsOnly, demoEnv, demoArgs] using hf
      rcases hf2 with h | h <;> subst h <;>
        exact ⟨(640, 480), by decide, fun d2 hd2 => (Option.some.inj hd2).symm⟩)).2.2.1

/-- C5 fails as stated: list the images `a.jpg` and `a.png`, which share the
base name `a`, and let the first not decode.  The first run skips it, keeps
its listed size 640 by 480 and writes the files of `a` for the second image.
The second run finds those files for the first image, fails to read it and
sets its size to that of the empty buffer, 0 by 0; the filter is called with
other sizes and matches.f.txt ends with other contents. -/
theorem C5_counterexample :
    (∀ m, (demoEnv ["a.jpg", "a.png"] ["img/a.jpg"]).importMatches
      ((demoEnv ["a.jpg", "a.png"] ["img/a.jpg"]).exportMatches m) = m) ∧
    Event.Filter eGeometricModel.FUNDAMENTAL_MATRIX [((0, 1), [(0, 0)])]
        [(640, 480), (640, 480)] ∈
      (main (demoEnv ["a.jpg", "a.png"] ["img/a.jpg"]) (some demoArgs) listsOnly).2.log ∧
    Event.Filter eGeometricModel.FUNDAMENTAL_MATRIX [((0, 1), [(0, 0)])]
        [(0, 0), (640, 480)] ∈
      (main (demoEnv ["a.jpg", "a.png"] ["img/a.jpg"]) (some demoArgs)
        (main (demoEnv ["a.jpg", "a.png"] ["img/a.jpg"]) (some demoArgs) listsOnly).2).2.log ∧
    (main (demoEnv ["a.jpg", "a.png"] ["img/a.jpg"]) (some demoArgs)
        (main (demoEnv ["a.jpg", "a.png"] ["img/a.jpg"]) (some demoArgs) listsOnly).2).2.files
      (Artifact.geometric eGeometricModel.FUNDAMENTAL_MATRIX) ≠
      (main (demoEnv ["a.jpg", "a.png"] ["img/a.jpg"]) (some demoArgs) listsOnly).2.files
        (Artifact.geometric eGeometricModel.FUNDAMENTAL_MATRIX) :=
  ⟨fun _ => rfl, by decide, by decide, by decide⟩

/-! ## Single precision: the overlap test on counts below 2^24 -/

theorem log2Fuel_spec : ∀ (fuel n : Nat), 0 < n → n ≤ fuel →
    2 ^ log2Fuel fuel n ≤ n ∧ n < 2 ^ (log2Fuel fuel n + 1) := by
  intro fuel
  induction fuel with
  | zero => intro n h1 h2; omega
  | succ fuel ih =>
    intro n h1 h2
    unfold log2Fuel
    by_cases h : n < 2
    · simp only [h, if_true]
      constructor
      · simpa using h1
      · simpa using h
    · simp only [h, if_false]
      have h3 := ih (n / 2) (by omega) (by omega)
      have e1 : 2 ^ (log2Fuel fuel (n / 2) + 1) = 2 * 2 ^ log2Fuel fuel (n / 2) := by
        rw [pow_succ]; ring
      have e2 : 2 ^ (log2Fuel fuel (n / 2) + 1 + 1) = 2 * 2 ^ (log2Fuel fuel (n / 2) + 1) := by
        rw [pow_succ]; ring
      rw [e2]
      rw [e1] at h3 ⊢
      omega

theorem ilog2_spec (n : Nat) (h : 0 < n) : 2 ^ ilog2 n ≤ n ∧ n < 2 ^ (ilog2 n + 1) :=
  log2Fuel_spec n n h (le_refl n)

theorem ilog2_zero : ilog2 0 = 0 := rfl

/-- With k the spacing exponent of the quotient q: q < 2^(k+24), and if the
spacing is above one unit, 2^(k+23) ≤ q. -/
theorem spacing_bounds (q : Nat) :
    q < 2 ^ (ilog2 q - 23 + 24) ∧ (1 ≤ ilog2 q - 23 → 2 ^ (ilog2 q - 23 + 23) ≤ q) := by
  rcases Nat.eq_zero_or_pos q with h | h
  · subst h
    simp [ilog2_zero]
  · obtain ⟨h1, h2⟩ := ilog2_spec q h
    constructor
    · exact lt_of_lt_of_le h2 (Nat.pow_le_pow_right (by norm_num) (by omega))
    · intro hk
      have : ilog2 q - 23 + 23 = ilog2 q := by omega
      rw [this]
      exact h1

theorem roundNearestEven_bounds (N D : Nat) :
    N / D ≤ roundNearestEven N D ∧ roundNearestEven N D ≤ N / D + 1 := by
  unfold roundNearestEven
  split
  · omega
  · split
    · omega
    · split <;> omega

/-- Rounding to nearest even stays below an even integer M exactly when the
quotient is below M - 1/2. -/
theorem roundNearestEven_lt_even (N D M : Nat) (hD : 0 < D) (hM : M % 2 = 0) :
    roundNearestEven N D < M ↔ 2 * N < (2 * M - 1) * D := by
  have hdm := Nat.div_add_mod N D
  have hr := Nat.mod_lt N hD
  generalize hq : N / D = q at hdm
  generalize hrr : N % D = r at hdm hr
  have hRNE : roundNearestEven N D =
      if 2 * r < D then q else if D < 2 * r then q + 1 else if q % 2 = 0 then q else q + 1 := by
    unfold roundNearestEven
    rw [hq, hrr]
  rw [hRNE]
  rcases Nat.lt_trichotomy (q + 1) M with h | h | h
  · -- q + 1 < M
    have e1 : (if 2 * r < D then q else if D < 2 * r then q + 1 else
        if q % 2 = 0 then q else q + 1) < M := by
      split
      · omega
      · split
        · omega
        · split <;> omega
    have e2 : 2 * N < (2 * M - 1) * D := by
      have : (2 * q + 2) * D ≤ (2 * M - 1) * D := Nat.mul_le_mul_right D (by omega)
      have : D * q * 2 + 2 * D = (2 * q + 2) * D := by ring
      have : 2 * N = D * q * 2 + 2 * r := by omega
      omega
    exact ⟨fun _ => e2, fun _ => e1⟩
  · -- q + 1 = M, q is odd
    have hodd : q % 2 = 1 := by omega
    have e3 : (2 * M - 1) * D = D * q * 2 + D := by
      have : 2 * M - 1 = 2 * q + 1 := by omega
      rw [this]; ring
    rw [e3]
    have : 2 * N = D * q * 2 + 2 * r := by omega
    rw [this]
    constructor
    · intro hlt
      by_cases h1 : 2 * r < D
      · omega
      · exfalso
        simp only [h1, if_false] at hlt
        by_cases h2 : D < 2 * r
        · simp only [h2, if_true] at hlt; omega
        · simp only [h2, if_false] at hlt
          have : ¬ q % 2 = 0 := by omega
          simp only [this, if_false] at hlt
          omega
    · intro hlt
      have h1 : 2 * r < D := by omega
      simp only [h1, if_true]
      omega
  · -- M ≤ q
    have e1 : ¬ (if 2 * r < D then q else if D < 2 * r then q + 1 else
        if q % 2 = 0 then q else q + 1) < M := by
      split
      · omega
      · split
        · omega
        · split <;> omega
    have e2 : ¬ 2 * N < (2 * M - 1) * D := by
      have h1 : (2 * M - 1) * D ≤ (2 * q) * D := Nat.mul_le_mul_right D (by omega)
      have h2 : (2 * q) * D = D * q * 2 := by ring
      have : 2 * N = D * q * 2 + 2 * r := by omega
      omega
    exact ⟨fun h => absurd h e1, fun h => absurd h e2⟩

theorem finite_range : (2:Nat) ^ 24 * 2 ^ 252 < 2 ^ 128 * 2 ^ 149 := by
  have a : (2:Nat) ^ 252 = 2 ^ 103 * 2 ^ 149 := by rw [← pow_add]
  have b : (2:Nat) ^ 24 * 2 ^ 103 < 2 ^ 128 := by norm_num
  rw [a, ← Nat.mul_assoc]
  exact Nat.mul_lt_mul_of_pos_right b (by positivity)

/-- The rounded quotient N / D is below the float M * 2^K (M even, with 24
significant bits) exactly when the quotient is below the midpoint between
that float and the one before it. -/
theorem round_lt_float (N D M K : Nat) (hD : 0 < D) (hM : M % 2 = 0)
    (hMlo : 2 ^ 23 < M) (hMhi : M < 2 ^ 24) (hK : K ≤ 252) :
    F32.lt (F32.round N D) (F32.fin (M * 2 ^ K)) = true ↔
      2 * N < (2 * M - 1) * (D * 2 ^ K) := by
  have hc : M * 2 ^ K < 2 ^ 128 * 2 ^ 149 := by
    have h1 : (2:Nat) ^ K ≤ 2 ^ 252 := Nat.pow_le_pow_right (by norm_num) hK
    have h2 : M * 2 ^ K ≤ M * 2 ^ 252 := Nat.mul_le_mul_left M h1
    have h3 : M * 2 ^ 252 < 2 ^ 24 * 2 ^ 252 :=
      Nat.mul_lt_mul_of_pos_right hMhi (by positivity)
    exact lt_of_le_of_lt h2 (lt_trans h3 finite_range)
  obtain ⟨hq_hi, hq_lo⟩ := spacing_bounds (N / D)
  have hm := roundNearestEven_bounds N (D * 2 ^ (ilog2 (N / D) - 23))
  have hdiv : N / (D * 2 ^ (ilog2 (N / D) - 23)) = N / D / 2 ^ (ilog2 (N / D) - 23) :=
    (Nat.div_div_eq_div_mul N D _).symm
  have hNlt : N < D * (N / D + 1) := Nat.lt_mul_div_succ N hD
  have hNge : D * (N / D) ≤ N := Nat.mul_div_le N D
  unfold F32.round
  simp only
  generalize hk : ilog2 (N / D) - 23 = k at *
  generalize hq0 : N / D = q0 at *
  generalize hmm : roundNearestEven N (D * 2 ^ k) = m at *
  have hA : 0 < 2 ^ k := by positivity
  have hB : 0 < 2 ^ K := by positivity
  rw [hdiv] at hm
  rw [pow_add] at hq_hi
  rcases Nat.lt_trichotomy k K with hlt | heq | hgt
  · -- the quotient lies in a binade below that of the float
    have hAB : 2 * 2 ^ k ≤ 2 ^ K := by
      have : (2:Nat) ^ (k + 1) ≤ 2 ^ K := Nat.pow_le_pow_right (by norm_num) hlt
      rw [pow_succ] at this
      omega
    have hm24 : m ≤ 2 ^ 24 := by
      have : q0 / 2 ^ k < 2 ^ 24 := by
        rw [Nat.div_lt_iff_lt_mul hA]
        rw [mul_comm]; exact hq_hi
      omega
    have hn1 : m * 2 ^ k ≤ 2 ^ 24 * 2 ^ k := Nat.mul_le_mul_right _ hm24
    have hn2 : 2 ^ 24 * (2 * 2 ^ k) ≤ 2 ^ 24 * 2 ^ K := Nat.mul_le_mul_left _ hAB
    have hn3 : 2 ^ 24 * 2 ^ K < (2 * M) * 2 ^ K :=
      Nat.mul_lt_mul_of_pos_right (by omega) hB
    have hn : m * 2 ^ k < M * 2 ^ K := by
      have e1 : 2 ^ 24 * (2 * 2 ^ k) = 2 * (2 ^ 24 * 2 ^ k) := by ring
      have e2 : (2 * M) * 2 ^ K = 2 * (M * 2 ^ K) := by ring
      omega
    have hninf : ¬ 2 ^ 128 * 2 ^ 149 ≤ m * 2 ^ k := by omega
    have hrhs : 2 * N < (2 * M - 1) * (D * 2 ^ K) := by
      have h1 : q0 + 1 ≤ 2 ^ k * 2 ^ 24 := hq_hi
      have h2 : D * (q0 + 1) ≤ D * (2 ^ k * 2 ^ 24) := Nat.mul_le_mul_left D h1
      have h3 : D * (2 * 2 ^ k) ≤ D * 2 ^ K := Nat.mul_le_mul_left D hAB
      have h4 : 2 ^ 24 * (D * 2 ^ K) ≤ (2 * M - 1) * (D * 2 ^ K) :=
        Nat.mul_le_mul_right _ (by omega)
      have h5 : 2 ^ 24 * (D * (2 * 2 ^ k)) ≤ 2 ^ 24 * (D * 2 ^ K) := Nat.mul_le_mul_left _ h3
      have e1 : 2 ^ 24 * (D * (2 * 2 ^ k)) = 2 * (D * (2 ^ k * 2 ^ 24)) := by ring
      omega
    simp only [hninf, if_false, F32.lt, decide_eq_true_eq]
    exact ⟨fun _ => hrhs, fun _ => hn⟩
  · -- the quotient lies in the binade of the float
    subst heq
    have hm24 : m ≤ 2 ^ 24 := by
      have : q0 / 2 ^ k < 2 ^ 24 := by
        rw [Nat.div_lt_iff_lt_mul hA]
        rw [mul_comm]; exact hq_hi
      omega
    have hninf : ¬ 2 ^ 128 * 2 ^ 149 ≤ m * 2 ^ k := by
      have h1 : m * 2 ^ k ≤ 2 ^ 24 * 2 ^ k := Nat.mul_le_mul_right _ hm24
      have h2 : (2:Nat) ^ 24 * 2 ^ k ≤ 2 ^ 24 * 2 ^ 252 :=
        Nat.mul_le_mul_left _ (Nat.pow_le_pow_right (by norm_num) hK)
      exact not_le_of_lt (lt_of_le_of_lt h1 (lt_of_le_of_lt h2 finite_range))
    simp only [hninf, if_false, F32.lt, decide_eq_true_eq]
    rw [← roundNearestEven_lt_even N (D * 2 ^ k) M (Nat.mul_pos hD hA) hM, hmm]
    exact Nat.mul_lt_mul_right hA
  · -- the quotient lies in a binade above that of the float
    have hk1 : 1 ≤ k := by omega
    have hq := hq_lo hk1
    rw [pow_add] at hq
    have hAB : 2 * 2 ^ K ≤ 2 ^ k := by
      have : (2:Nat) ^ (K + 1) ≤ 2 ^ k := Nat.pow_le_pow_right (by norm_num) hgt
      rw [pow_succ] at this
      omega
    have hm23 : 2 ^ 23 ≤ m := by
      have : 2 ^ 23 ≤ q0 / 2 ^ k := by
        rw [Nat.le_div_iff_mul_le hA]
        rw [mul_comm]; exact hq
      omega
    have hn : M * 2 ^ K ≤ m * 2 ^ k := by
      have h1 : 2 ^ 23 * 2 ^ k ≤ m * 2 ^ k := Nat.mul_le_mul_right _ hm23
      have h2 : 2 ^ 23 * (2 * 2 ^ K) ≤ 2 ^ 23 * 2 ^ k := Nat.mul_le_mul_left _ hAB
      have h3 : M * 2 ^ K ≤ 2 ^ 24 * 2 ^ K := Nat.mul_le_mul_right _ (by omega)
      have e1 : 2 ^ 23 * (2 * 2 ^ K) = 2 ^ 24 * 2 ^ K := by ring
      omega
    have hrhs : ¬ 2 * N < (2 * M - 1) * (D * 2 ^ K) := by
      have h1 : D * (2 ^ k * 2 ^ 23) ≤ D * q0 := Nat.mul_le_mul_left D hq
      have h2 : D * (2 * 2 ^ K) ≤ D * 2 ^ k := Nat.mul_le_mul_left D hAB
      have h3 : (2 * M - 1) * (D * 2 ^ K) ≤ 2 ^ 25 * (D * 2 ^ K) :=
        Nat.mul_le_mul_right _ (by omega)
      have h4 : 2 ^ 23 * (D * (2 * 2 ^ K)) ≤ 2 ^ 23 * (D * 2 ^ k) := Nat.mul_le_mul_left _ h2
      have e1 : 2 ^ 23 * (D * (2 * 2 ^ K)) * 2 = 2 ^ 25 * (D * 2 ^ K) := by ring
      have e2 : 2 ^ 23 * (D * 2 ^ k) = D * (2 ^ k * 2 ^ 23) := by ring
      omega
    constructor
    · intro h
      exfalso
      split at h
      · simp [F32.lt] at h
      · simp only [F32.lt, decide_eq_true_eq] at h
        omega
    · intro h
      exact absurd h hrhs

theorem roundNearestEven_exact (x D : Nat) (hD : 0 < D) : roundNearestEven (x * D) D = x := by
  unfold roundNearestEven
  rw [Nat.mul_mod_left, Nat.mul_div_cancel x hD]
  simp [hD]

/-- A count below 2^24 converts to float without rounding. -/
theorem ofNat_exact (n : Nat) (h : n < 2 ^ 24) : F32.ofNat n = F32.fin (n * 2 ^ 149) := by
  unfold F32.ofNat F32.round
  simp only [Nat.div_one, one_mul]
  have hk : ilog2 (n * 2 ^ 149) - 23 ≤ 149 := by
    rcases Nat.eq_zero_or_pos n with h0 | h0
    · subst h0; simp [ilog2_zero]
    · have hpos : 0 < n * 2 ^ 149 := Nat.mul_pos h0 (by positivity)
      have h1 := (ilog2_spec _ hpos).1
      by_contra hcon
      have h2 : (2:Nat) ^ (24 + 149) ≤ 2 ^ ilog2 (n * 2 ^ 149) :=
        Nat.pow_le_pow_right (by norm_num) (by omega)
      rw [pow_add] at h2
      have h3 : n * 2 ^ 149 < 2 ^ 24 * 2 ^ 149 := Nat.mul_lt_mul_of_pos_right h (by positivity)
      omega
  generalize ilog2 (n * 2 ^ 149) - 23 = k at hk
  have hsplit : (2:Nat) ^ 149 = 2 ^ (149 - k) * 2 ^ k := by
    rw [← pow_add]
    congr 1
    omega
  have hN : n * 2 ^ 149 = (n * 2 ^ (149 - k)) * 2 ^ k := by
    rw [Nat.mul_assoc, ← hsplit]
  have hr : roundNearestEven (n * 2 ^ 149) (2 ^ k) = n * 2 ^ (149 - k) := by
    rw [hN]
    exact roundNearestEven_exact _ _ (by positivity)
  rw [hr, ← hN]
  have hfin : ¬ 2 ^ 128 * 2 ^ 149 ≤ n * 2 ^ 149 := by
    have : n * 2 ^ 149 < 2 ^ 128 * 2 ^ 149 :=
      Nat.mul_lt_mul_of_pos_right (lt_trans h (by norm_num)) (by positivity)
    omega
  rw [if_neg hfin]

/-- The float literal `.3f` is 10066330 * 2^-25. -/
theorem literal_three_tenths : F32.literal 3 10 = F32.fin (10066330 * 2 ^ 124) := by
  decide

/-- On counts below 2^24 the test of line 417 is exact: the pair is removed
exactly when G < 50 or G / P < 3 / 10. -/
theorem poorOverlap_spec (G P : Nat) (hG : G < 2 ^ 24) (hP : P < 2 ^ 24) :
    poorOverlap G P = true ↔ G < 50 ∨ 10 * G < 3 * P := by
  unfold poorOverlap
  rw [ofNat_exact G hG, ofNat_exact P hP, literal_three_tenths]
  by_cases h50 : G < 50
  · simp [h50]
  · simp only [h50, decide_False, Bool.false_or, false_or]
    rcases Nat.eq_zero_or_pos P with h0 | h0
    · subst h0
      have hG0 : G * 2 ^ 149 ≠ 0 := by
        have : 0 < G * 2 ^ 149 := Nat.mul_pos (by omega) (by positivity)
        omega
      have hdiv : F32.div (F32.fin (G * 2 ^ 149)) (F32.fin (0 * 2 ^ 149)) = F32.inf := by
        show (if 0 * 2 ^ 149 = 0 then (if G * 2 ^ 149 = 0 then F32.nan else F32.inf)
          else F32.round (G * 2 ^ 149 * 2 ^ 149) (0 * 2 ^ 149)) = F32.inf
        rw [Nat.zero_mul, if_pos rfl, if_neg hG0]
      rw [hdiv]
      constructor
      · intro h
        cases h
      · intro h
        omega
    · have hb : P * 2 ^ 149 ≠ 0 := by
        have : 0 < P * 2 ^ 149 := Nat.mul_pos h0 (by positivity)
        omega
      have hdiv : F32.div (F32.fin (G * 2 ^ 149)) (F32.fin (P * 2 ^ 149)) =
          F32.round (G * 2 ^ 149 * 2 ^ 149) (P * 2 ^ 149) := by
        show (if P * 2 ^ 149 = 0 then (if G * 2 ^ 149 = 0 then F32.nan else F32.inf)
          else F32.round (G * 2 ^ 149 * 2 ^ 149) (P * 2 ^ 149)) = _
        rw [if_neg hb]
      rw [hdiv, round_lt_float _ _ 10066330 124 (Nat.mul_pos h0 (by positivity))
        (by norm_num) (by norm_num) (by norm_num) (by norm_num)]
      have e0 : (2:Nat) * 2 ^ 149 = 2 ^ 26 * 2 ^ 124 := by norm_num
      have e1 : 2 * (G * 2 ^ 149 * 2 ^ 149) = (G * 2 ^ 26) * (2 ^ 149 * 2 ^ 124) := by
        calc 2 * (G * 2 ^ 149 * 2 ^ 149) = G * (2 * 2 ^ 149) * 2 ^ 149 := by ring
          _ = G * (2 ^ 26 * 2 ^ 124) * 2 ^ 149 := by rw [e0]
          _ = (G * 2 ^ 26) * (2 ^ 149 * 2 ^ 124) := by ring
      have e2 : (2 * 10066330 - 1) * (P * 2 ^ 149 * 2 ^ 124) =
          (20132659 * P) * (2 ^ 149 * 2 ^ 124) := by ring
      rw [e1, e2, Nat.mul_lt_mul_right (by positivity)]
      have : (2:Nat) ^ 26 = 67108864 := by norm_num
      have : (2:Nat) ^ 24 = 16777216 := by norm_num
      omega

/-! ## The pruning of the essential case -/

theorem foldl_erase (ks : List Pair) :
    ∀ m : PairWiseMatches, ks.foldl erase m = m.filter (fun e => decide (e.1 ∉ ks)) := by
  induction ks with
  | nil => intro m; simp
  | cons k ks ih =>
    intro m
    simp only [List.foldl_cons]
    rw [ih (erase m k)]
    unfold erase
    rw [List.filter_filter]
    apply List.filter_congr
    intro e _
    by_cases h1 : e.1 = k <;> by_cases h2 : e.1 ∈ ks <;> simp [h1, h2]

theorem mem_vec_toRemove (put geo : PairWiseMatches) (k : Pair) :
    k ∈ vec_toRemove put geo ↔
      ∃ e ∈ geo, poorOverlap e.2.length (putativePhotometricCount put e.1) = true ∧ e.1 = k := by
  unfold vec_toRemove
  simp only [List.mem_map, List.mem_filter]
  constructor
  · rintro ⟨e, ⟨he, hp⟩, hk⟩
    exact ⟨e, he, hp, hk⟩
  · rintro ⟨e, he, hp, hk⟩
    exact ⟨e, ⟨he, hp⟩, hk⟩

/-- On a map (every key once) the two loops keep exactly the pairs that the
test of line 417 does not flag, each with its matches. -/
theorem removePoorOverlap_eq_filter (put geo : PairWiseMatches)
    (hkeys : (geo.map Prod.fst).Nodup) :
    removePoorOverlap put geo =
      geo.filter (fun e => !poorOverlap e.2.length (putativePhotometricCount put e.1)) := by
  unfold removePoorOverlap
  rw [foldl_erase]
  apply List.filter_congr
  intro e he
  have hinj := List.inj_on_of_nodup_map hkeys
  by_cases hp : poorOverlap e.2.length (putativePhotometricCount put e.1) = true
  · have : e.1 ∈ vec_toRemove put geo := (mem_vec_toRemove put geo e.1).2 ⟨e, he, hp, rfl⟩
    simp [this, hp]
  · have : e.1 ∉ vec_toRemove put geo := by
      intro hmem
      obtain ⟨e2, he2, hp2, hk⟩ := (mem_vec_toRemove put geo e.1).1 hmem
      have := hinj he2 he hk
      subst this
      exact hp hp2
    simp [this, hp]

/-- The boundary values of the test: 50 inliers of 100 putatives survive, 49
of 100 do not; 60 of 200 (ratio 0.3) survive, 29999 of 100000 (ratio 0.29999)
do not. -/
theorem poorOverlap_boundaries :
    poorOverlap 50 100 = false ∧ poorOverlap 49 100 = true ∧
    poorOverlap 60 200 = false ∧ poorOverlap 29999 100000 = true := by
  decide

/-- On counts below 2^24 the two loops keep exactly the pairs with G ≥ 50 and
3 P ≤ 10 G. -/
theorem removePoorOverlap_spec (put geo : PairWiseMatches)
    (hkeys : (geo.map Prod.fst).Nodup)
    (hput : ∀ e ∈ geo, ∃ v, find put e.1 = some v ∧ v.length < 2 ^ 24)
    (hsmall : ∀ e ∈ geo, e.2.length < 2 ^ 24) :
    removePoorOverlap put geo =
      geo.filter (fun e =>
        decide (50 ≤ e.2.length ∧ 3 * putativePhotometricCount put e.1 ≤ 10 * e.2.length)) := by
  rw [removePoorOverlap_eq_filter _ _ hkeys]
  apply List.filter_congr
  intro e he
  obtain ⟨v, hv, hvl⟩ := hput e he
  have hP : putativePhotometricCount put e.1 < 2 ^ 24 := by
    simp only [putativePhotometricCount, hv]
    exact hvl
  have hspec := poorOverlap_spec e.2.length (putativePhotometricCount put e.1) (hsmall e he) hP
  by_cases hp : poorOverlap e.2.length (putativePhotometricCount put e.1) = true
  · have h := hspec.1 hp
    have : ¬ (50 ≤ e.2.length ∧ 3 * putativePhotometricCount put e.1 ≤ 10 * e.2.length) := by
      omega
    simp [hp, this]
  · have h : ¬ (e.2.length < 50 ∨ 10 * e.2.length < 3 * putativePhotometricCount put e.1) :=
      fun h => hp (hspec.2 h)
    have : 50 ≤ e.2.length ∧ 3 * putativePhotometricCount put e.1 ≤ 10 * e.2.length := by
      omega
    simp [hp, this]

/-- C1, as the code has it: in the essential case of main, let the output
`geo` of the estimator be a map (every pair once), let every pair of it have a
putative entry, and let the inlier count G and the putative count P of every
pair be below 2^24 = 16777216, so that single precision represents them
exactly.  Then the final geometric matches are exactly `geo` restricted to
the pairs with G ≥ 50 and G / P ≥ 3 / 10 (as 3 P ≤ 10 G), each with its inlier
sequence. -/
theorem C1_essential_pruning (env : Env) (st : PipelineState) (files : Files)
    (map_PutativesMatches geo : PairWiseMatches)
    (hmodel : st.model = eGeometricModel.ESSENTIAL_MATRIX)
    (hgeo : env.Filter eGeometricModel.ESSENTIAL_MATRIX
      (buildMapK st.vec_camImageName st.vec_focalGroup) st.vec_fileNames
      (featureView env files st.vec_fileNames) map_PutativesMatches st.vec_imagesSize = geo)
    (hkeys : (geo.map Prod.fst).Nodup)
    (hput : ∀ e ∈ geo, ∃ v, find map_PutativesMatches e.1 = some v ∧ v.length < 2 ^ 24)
    (hsmall : ∀ e ∈ geo, e.2.length < 2 ^ 24) :
    filterByModel env st files map_PutativesMatches =
      geo.filter (fun e =>
        decide (50 ≤ e.2.length ∧
          3 * putativePhotometricCount map_PutativesMatches e.1 ≤ 10 * e.2.length)) := by
  unfold filterByModel
  rw [hmodel]
  simp only
  rw [hgeo]
  exact removePoorOverlap_spec map_PutativesMatches geo hkeys hput hsmall

/-- C1 on three pairs: 50 inliers of 100 putatives stay, 49 of 100 and 3 of
10 go. -/
theorem C1_essential_pruning_witness :
    filterByModel pruningEnv pruningState (fun _ => none) pruningPutatives =
      [((0, 1), List.replicate 50 (0, 0))] :=
  (C1_essential_pruning pruningEnv pruningState (fun _ => none) pruningPutatives
    [((0, 1), List.replicate 50 (0, 0)), ((0, 2), List.replicate 49 (0, 0)),
     ((1, 2), List.replicate 3 (0, 0))]
    rfl rfl
    (by decide)
    (by
      intro e he
      simp only [List.mem_cons, List.mem_singleton, List.not_mem_nil, or_false] at he
      rcases he with h | h | h <;> subst h
      · exact ⟨List.replicate 100 (0, 0), rfl, by simp⟩
      · exact ⟨List.replicate 100 (0, 0), rfl, by simp⟩
      · exact ⟨List.replicate 10 (0, 0), rfl, by simp⟩)
    (by
      intro e he
      simp only [List.mem_cons, List.mem_singleton, List.not_mem_nil, or_false] at he
      rcases he with h | h | h <;> subst h <;> simp)).trans (by decide)

/-- A single pair that the test flags is removed. -/
theorem removePoorOverlap_single (k : Pair) (vp vg : List IndMatch)
    (h : poorOverlap vg.length vp.length = true) :
    removePoorOverlap [(k, vp)] [(k, vg)] = [] := by
  simp [removePoorOverlap, vec_toRemove, putativePhotometricCount, find, erase, h]


/-- C1 fails as stated: a pair with G = 5033167 inliers of P = 16777223
putative matches has G ≥ 50 and G / P ≥ 3 / 10 (3 P = 50331669 ≤ 50331670 =
10 G), yet it is removed: P converts to the float 16777224, the float
quotient rounds to 10066329 * 2^-25, below `.3f` = 10066330 * 2^-25. -/
theorem C1_counterexample :
    (50 ≤ 5033167 ∧ 3 * 16777223 ≤ 10 * 5033167) ∧
    F32.ofNat 16777223 = F32.fin (16777224 * 2 ^ 149) ∧
    F32.div (F32.ofNat 5033167) (F32.ofNat 16777223) = F32.fin (10066329 * 2 ^ 124) ∧
    removePoorOverlap [((0, 1), List.replicate 16777223 (0, 0))]
      [((0, 1), List.replicate 5033167 (0, 0))] = [] := by
  refine ⟨by decide, by decide, by decide, ?_⟩
  apply removePoorOverlap_single
  rw [List.length_replicate, List.length_replicate]
  decide

end ComputeMatches
